import Mathlib

/-!
# Verification of the ptcow PxTone codec and playback engine

Shallow embedding of the relevant parts of the `ptcow` Rust crate
(binary codec for the PxTone container, the event list codec, the
overdrive effect and the sample-accurate playback engine), together
with proofs and disproofs of the specification claims.

Modelling conventions, used consistently below:

* Machine integers are embedded as `Nat`/`Int`; wrapping (release-mode
  Rust semantics) is written with an explicit `% 2^w` exactly where the
  original unsigned type can wrap, and Rust's truncating `i32` division
  is `Int.tdiv`.
* A Rust `Reader` holds a byte slice and a cursor; the pair is
  represented here by the *unread suffix* of the byte list.  Each
  reading function returns the value together with the remaining
  suffix, or `none`/an error on a failed read, mirroring the
  `Result`-based control flow of the source.
* `f32`/`f64` values that the codec merely transports (bpm, tuning,
  rate, cut, amp) are represented by their 32-bit patterns, which is
  exact.  `f32`/`f64` values that the playback engine computes with
  are represented as exact rationals (`Rat`); every claim proved about
  the engine below concerns control flow, integer state or values at
  which the floating point computation of the source is exact.
* Rust panics (failed `unwrap`, out-of-bounds `Vec` index, division by
  zero) are a distinct observable outcome and are modelled by the
  dedicated error value `ProjectReadError.panicked`.
-/

namespace Ptcow

/-! ## The varint codec (`src/io.rs`)

`Reader::next` on a `u8` is `next_u8`; `Reader::next_varint` is
`next_varint`.  `varint_to_int`/`int_to_varint` are the pure
conversion functions.  `u8` left shifts discard overflowing bits, so
each `u8`-typed `<<` of the source carries an explicit `% 256` here.
-/

/-- Rust `Reader::next::<u8>()`: one byte off the front, or a read
error at end of input. -/
def next_u8 : List Nat → Option (Nat × List Nat)
  | [] => none
  | b :: rest => some (b, rest)

/-- `u32::from_le_bytes` on four byte values. -/
def u32_from_le (b0 b1 b2 b3 : Nat) : Nat :=
  b0 + 256 * b1 + 65536 * b2 + 16777216 * b3

/-- `varint_to_int` of `src/io.rs`: reassemble a `u32` from 1..5
varint bytes; any other buffer length yields `None`. -/
def varint_to_int : List Nat → Option Nat
  | [b0] => some (u32_from_le (b0 &&& 0x7f) 0 0 0)
  | [b0, b1] =>
    some (u32_from_le ((b0 &&& 0x7f) ||| ((b1 <<< 7) % 256))
      ((b1 &&& 0x7f) >>> 1) 0 0)
  | [b0, b1, b2] =>
    some (u32_from_le ((b0 &&& 0x7f) ||| ((b1 <<< 7) % 256))
      (((b1 &&& 0x7f) >>> 1) ||| ((b2 <<< 6) % 256))
      ((b2 &&& 0x7f) >>> 2) 0)
  | [b0, b1, b2, b3] =>
    some (u32_from_le ((b0 &&& 0x7f) ||| ((b1 <<< 7) % 256))
      (((b1 &&& 0x7f) >>> 1) ||| ((b2 <<< 6) % 256))
      (((b2 &&& 0x7f) >>> 2) ||| ((b3 <<< 5) % 256))
      ((b3 &&& 0x7f) >>> 3))
  | [b0, b1, b2, b3, b4] =>
    some (u32_from_le ((b0 &&& 0x7f) ||| ((b1 <<< 7) % 256))
      (((b1 &&& 0x7f) >>> 1) ||| ((b2 <<< 6) % 256))
      (((b2 &&& 0x7f) >>> 2) ||| ((b3 <<< 5) % 256))
      (((b3 &&& 0x7f) >>> 3) ||| ((b4 <<< 4) % 256)))
  | _ => none

/-- `int_to_varint` of `src/io.rs`.  The four range tests and the
byte expressions mirror the source; `a0..a3` are `num.to_le_bytes()`. -/
def int_to_varint (num : Nat) : List Nat :=
  let a0 := num % 256
  let a1 := num / 2 ^ 8 % 256
  let a2 := num / 2 ^ 16 % 256
  let a3 := num / 2 ^ 24 % 256
  if num < 0x80 then
    [a0]
  else if num < 0x4000 then
    [(a0 &&& 0x7F) ||| 0x80,
     (a0 >>> 7) ||| (((a1 <<< 1) % 256) &&& 0x7F)]
  else if num < 0x200000 then
    [(a0 &&& 0x7F) ||| 0x80,
     ((a0 >>> 7) ||| (((a1 <<< 1) % 256) &&& 0x7F)) ||| 0x80,
     (a1 >>> 6) ||| (((a2 <<< 2) % 256) &&& 0x7F)]
  else if num < 0x10000000 then
    [(a0 &&& 0x7F) ||| 0x80,
     ((a0 >>> 7) ||| (((a1 <<< 1) % 256) &&& 0x7F)) ||| 0x80,
     ((a1 >>> 6) ||| (((a2 <<< 2) % 256) &&& 0x7F)) ||| 0x80,
     (a2 >>> 5) ||| (((a3 <<< 3) % 256) &&& 0x7F)]
  else
    [(a0 &&& 0x7F) ||| 0x80,
     ((a0 >>> 7) ||| (((a1 <<< 1) % 256) &&& 0x7F)) ||| 0x80,
     ((a1 >>> 6) ||| (((a2 <<< 2) % 256) &&& 0x7F)) ||| 0x80,
     ((a2 >>> 5) ||| (((a3 <<< 3) % 256) &&& 0x7F)) ||| 0x80,
     a3 >>> 4]

/-- The `while count < 5` loop of `Reader::next_varint`: read a byte,
append it to the buffer, stop as soon as the just-read byte has a
clear continuation bit, and in any case after five bytes. -/
def next_varint_loop : Nat → List Nat → List Nat → Option (List Nat × List Nat)
  | 0, acc, rest => some (acc, rest)
  | Nat.succ k, acc, rest =>
    match next_u8 rest with
    | none => none
    | some (b, rest') =>
      if b &&& 0x80 = 0 then some (acc ++ [b], rest')
      else next_varint_loop k (acc ++ [b]) rest'

/-- `Reader::next_varint` of `src/io.rs`. -/
def next_varint (l : List Nat) : Option (Nat × List Nat) :=
  match next_varint_loop 5 [] l with
  | none => none
  | some (buf, rest) =>
    match varint_to_int buf with
    | none => none
    | some v => some (v, rest)

/-- `write_varint` of `src/io.rs`: append the varint encoding. -/
def write_varint (num : Nat) (out : List Nat) : List Nat :=
  out ++ int_to_varint num

/-! ## Events (`src/event.rs`)

`EventPayload` mirrors the tagged union; the `Tuning` payload carries
the 32-bit pattern of the `f32` (the codec moves it with `to_bits` /
`bytemuck::cast`, so the bit pattern is the exact content).  The
failed `unwrap`s of `EveList::read` on out-of-range values are the
`panicked` outcome. -/

/-- `ProjectReadError` of `src/result.rs` (the `AntiOpreation` typo is
the source's), extended with the `panicked` outcome that models a Rust
panic (failed `unwrap`, out-of-bounds index). -/
inductive ProjectReadError where
  | antiOpreation
  | data
  | fmtNewer
  | fmtUnknown
  | invalidTag
  | invalidData
  | oggvReadError
  | oggvSupportDisabled
  | oldUnsupported
  | overtonePointOutOfRange (v : Nat)
  | panicked
deriving DecidableEq, Repr

/-- `EventPayload` of `src/event.rs`.  Field widths:
`duration`/`Tuning` bits are `u32`, `Key` is `i32`, `PanVol`/`PanTime`
are `u8`, `Velocity`/`Volume` are `i16`, `SetVoice`/`SetGroup` wrap a
`u8`. -/
inductive EventPayload where
  | null
  | onEv (duration : Nat)
  | key (k : Int)
  | panVol (v : Nat)
  | velocity (v : Int)
  | volume (v : Int)
  | portament (duration : Nat)
  | beatClock
  | beatTempo
  | beatNum
  | repeatEv
  | lastEv
  | setVoice (v : Nat)
  | setGroup (g : Nat)
  | tuning (bits : Nat)
  | panTime (v : Nat)
  | ptcowDebug (v : Int)
deriving DecidableEq, Repr

/-- `Event` of `src/event.rs`: payload, unit index (`u8`), absolute
tick (`u32`). -/
structure Event where
  payload : EventPayload
  unit : Nat
  tick : Nat
deriving DecidableEq, Repr

/-- `EveList` of `src/event.rs`. -/
structure EveList where
  eves : List Event
  ser_size : Nat
deriving DecidableEq, Repr

/-- `u32::cast_signed`: reinterpret a `u32` value as two's-complement
`i32`. -/
def u32_cast_signed (v : Nat) : Int :=
  if v < 2 ^ 31 then (v : Int) else (v : Int) - 2 ^ 32

/-- `i32::cast_unsigned` (also `u32::from` of the two's-complement
pattern): reinterpret an `i32` as `u32`. -/
def i32_cast_unsigned (k : Int) : Nat :=
  (k % 2 ^ 32).toNat

/-- `i16::cast_unsigned` widened to `u32`, as in
`vel.cast_unsigned().into()`. -/
def i16_cast_unsigned (v : Int) : Nat :=
  (v % 2 ^ 16).toNat

/-- `Reader::next::<u32>()`: four little-endian bytes. -/
def next_u32 : List Nat → Option (Nat × List Nat)
  | b0 :: b1 :: b2 :: b3 :: rest => some (u32_from_le b0 b1 b2 b3, rest)
  | _ => none

/-- `u32::to_le_bytes`. -/
def u32_le (n : Nat) : List Nat :=
  [n % 256, n / 256 % 256, n / 65536 % 256, n / 16777216 % 256]

/-- Decode one event record's `kind`/`value` pair into a payload,
mirroring the `match kind` of `EveList::read`.  The `try_into`
`unwrap`s of kinds 2, 3, 4, 5, 12, 13 and 15 panic on out-of-range
values. -/
def decode_event_payload (kind value : Nat) : Except ProjectReadError EventPayload :=
  match kind with
  | 0 => .ok .null
  | 1 => .ok (.onEv value)
  | 2 => if value < 2 ^ 31 then .ok (.key (value : Int)) else .error .panicked
  | 3 => if value < 2 ^ 8 then .ok (.panVol value) else .error .panicked
  | 4 =>
    let s := u32_cast_signed value
    if -(2 ^ 15) ≤ s ∧ s < 2 ^ 15 then .ok (.velocity s) else .error .panicked
  | 5 =>
    let s := u32_cast_signed value
    if -(2 ^ 15) ≤ s ∧ s < 2 ^ 15 then .ok (.volume s) else .error .panicked
  | 6 => .ok (.portament value)
  | 7 => .ok .beatClock
  | 8 => .ok .beatTempo
  | 9 => .ok .beatNum
  | 10 => .ok .repeatEv
  | 11 => .ok .lastEv
  | 12 => if value < 2 ^ 8 then .ok (.setVoice value) else .error .panicked
  | 13 => if value < 2 ^ 8 then .ok (.setGroup value) else .error .panicked
  | 14 => .ok (.tuning value)
  | 15 => if value < 2 ^ 8 then .ok (.panTime value) else .error .panicked
  | _ => .error .invalidData

/-- The `for _ in 0..eve_num` body of `EveList::read`: each record is
`varint delta_tick, u8 unit_no, u8 kind, varint value`; absolute ticks
are the wrapping running sum of the deltas. -/
def read_events_loop :
    Nat → Nat → List Event → List Nat → Except ProjectReadError (List Event × List Nat)
  | 0, _, acc, l => .ok (acc, l)
  | n + 1, absolute, acc, l =>
    match next_varint l with
    | none => .error .data
    | some (clock, l1) =>
      match next_u8 l1 with
      | none => .error .data
      | some (unit_no, l2) =>
        match next_u8 l2 with
        | none => .error .data
        | some (kind, l3) =>
          match next_varint l3 with
          | none => .error .data
          | some (value, l4) =>
            match decode_event_payload kind value with
            | .error e => .error e
            | .ok payload =>
              let absolute' := (absolute + clock) % 2 ^ 32
              read_events_loop n absolute'
                (acc ++ [{ payload := payload, unit := unit_no, tick := absolute' }]) l4

/-- `EveList::read` of `src/event.rs`: `u32 ser_size`, `u32
event_count`, then the records. -/
def EveList.read (l : List Nat) : Except ProjectReadError (EveList × List Nat) :=
  match next_u32 l with
  | none => .error .data
  | some (size, l1) =>
    match next_u32 l1 with
    | none => .error .data
    | some (eve_num, l2) =>
      match read_events_loop eve_num 0 [] l2 with
      | .error e => .error e
      | .ok (eves, rest) => .ok ({ eves := eves, ser_size := size }, rest)

/-- The `(kind, value)` wire pair of a payload; `none` for the
synthetic `PtcowDebug`, which serialization skips. -/
def payload_kind_value : EventPayload → Option (Nat × Nat)
  | .null => some (0, 0)
  | .onEv d => some (1, d)
  | .key k => some (2, i32_cast_unsigned k)
  | .panVol v => some (3, v)
  | .velocity v => some (4, i16_cast_unsigned v)
  | .volume v => some (5, i16_cast_unsigned v)
  | .portament d => some (6, d)
  | .beatClock => some (7, 0)
  | .beatTempo => some (8, 0)
  | .beatNum => some (9, 0)
  | .repeatEv => some (10, 0)
  | .lastEv => some (11, 0)
  | .setVoice v => some (12, v)
  | .setGroup g => some (13, g)
  | .tuning bits => some (14, bits)
  | .panTime v => some (15, v)
  | .ptcowDebug _ => none

/-- Is the payload the consumer-only debug event? -/
def EventPayload.isDebug : EventPayload → Bool
  | .ptcowDebug _ => true
  | _ => false

/-- The record bytes emitted by the `for eve in &self.eves` loop of
`EveList::write`: debug events are skipped (without touching the
running absolute tick), every other event contributes
`varint (tick - absolute)` (wrapping `u32` subtraction), the unit
byte, the kind byte and `varint value`. -/
def write_events : List Event → Nat → List Nat
  | [], _ => []
  | e :: rest, absolute =>
    match payload_kind_value e.payload with
    | none => write_events rest absolute
    | some (kind, value) =>
      int_to_varint ((2 ^ 32 + e.tick - absolute) % 2 ^ 32) ++
        [e.unit] ++ [kind] ++ int_to_varint value ++ write_events rest e.tick

/-- The recomputed event count of `EveList::write` (debug events are
excluded). -/
def count_non_debug (eves : List Event) : Nat :=
  (eves.filter (fun e => !e.payload.isDebug)).length

/-- `EveList::write` of `src/event.rs`.  The source writes a dummy
count and patches it retroactively; the result is the final count in
place, which is what this function emits directly. -/
def EveList.write (el : EveList) : List Nat :=
  u32_le el.ser_size ++ u32_le (count_non_debug el.eves % 2 ^ 32) ++
    write_events el.eves 0

/-- `EveList::sort`: stable sort by tick (`sort_by_key`). -/
def EveList.sort (el : EveList) : EveList :=
  { el with eves := el.eves.mergeSort (fun a b => a.tick ≤ b.tick) }

/-- The tick/width invariants under which one serialized event list
re-reads exactly: starting from running tick `abs`, every non-debug
event's tick is at least the previous one and below `2 ^ 32`, and unit
indices are bytes (`u8` typing invariant). -/
def events_wf : Nat → List Event → Prop
  | _, [] => True
  | abs, e :: rest =>
    if e.payload.isDebug then events_wf abs rest
    else abs ≤ e.tick ∧ e.tick < 2 ^ 32 ∧ e.unit < 2 ^ 8 ∧ events_wf e.tick rest

/-- Payload values that survive the `read`-side range checks (the
`try_into().unwrap()` calls), plus the `u32` width invariants of the
duration/tuning fields. -/
def payload_reparsable : EventPayload → Prop
  | .key k => 0 ≤ k ∧ k < 2 ^ 31
  | .velocity v => 0 ≤ v ∧ v < 2 ^ 15
  | .volume v => 0 ≤ v ∧ v < 2 ^ 15
  | .onEv d => d < 2 ^ 32
  | .portament d => d < 2 ^ 32
  | .panVol v => v < 2 ^ 8
  | .panTime v => v < 2 ^ 8
  | .setVoice v => v < 2 ^ 8
  | .setGroup g => g < 2 ^ 8
  | .tuning bits => bits < 2 ^ 32
  | _ => True


/-! ## Bit-twiddling bridge lemmas

The varint codec of `src/io.rs` works on `u8` bytes with `&`, `|`,
`<<`, `>>`.  These lemmas convert the bitwise forms into plain
arithmetic so that `omega` can finish the round-trip proofs.  In every
`|` that the codec performs the two operands have disjoint bit ranges;
`lor_two_pow_mul_eq_add` is the generic disjointness fact.
-/


/-! ## Shared reader helpers and exact `f32` bit-pattern helpers -/

/-- `Reader::next::<u16>()`: two little-endian bytes. -/
def next_u16 : List Nat → Option (Nat × List Nat)
  | b0 :: b1 :: rest => some (b0 + 256 * b1, rest)
  | _ => none

/-- `Reader::next::<i8>()`: one byte reinterpreted as a signed byte. -/
def next_i8 : List Nat → Option (Int × List Nat)
  | b :: rest => some (if b < 128 then (b : Int) else (b : Int) - 256, rest)
  | _ => none

/-- `Reader::next::<[u8; n]>()` / `fill_slice`: a fixed number of bytes. -/
def next_bytes (n : Nat) (l : List Nat) : Option (List Nat × List Nat) :=
  if n ≤ l.length then some (l.take n, l.drop n) else none

/-- `i8::cast_unsigned`. -/
def i8_cast_unsigned (v : Int) : Nat :=
  (v % 2 ^ 8).toNat

/-- Truncation toward zero of a rational, as in Rust `as` casts from
floats to integers (for in-range values). -/
def rat_trunc (q : Rat) : Int :=
  q.num.tdiv q.den

/-- Exact value of an IEEE-754 single-precision bit pattern. -/
inductive F32Val where
  | nan
  | negInf
  | posInf
  | finite (q : Rat)

/-- Decode an `f32` bit pattern exactly. -/
def f32_val (bits : Nat) : F32Val :=
  let s : Nat := bits / 2 ^ 31 % 2
  let e : Nat := bits / 2 ^ 23 % 256
  let m : Nat := bits % 2 ^ 23
  if e = 255 then
    if m = 0 then (if s = 1 then .negInf else .posInf) else .nan
  else
    let mag : Rat :=
      if e = 0 then (m : Rat) / 2 ^ 149
      else ((2 ^ 23 + m : Nat) : Rat) * (2 : Rat) ^ ((e : Int) - 150)
    .finite (if s = 1 then -mag else mag)

/-- IEEE `<=` on two `f32` bit patterns (`false` when either is NaN). -/
def f32_le (a b : Nat) : Bool :=
  match f32_val a, f32_val b with
  | .nan, _ => false
  | _, .nan => false
  | .negInf, _ => true
  | _, .negInf => false
  | _, .posInf => true
  | .posInf, _ => false
  | .finite x, .finite y => x ≤ y

/-- `RangeInclusive::<f32>::contains`. -/
def f32_range_contains (lo hi v : Nat) : Bool :=
  f32_le lo v && f32_le v hi

/-- Rust `f32 as u8`: saturating truncation toward zero (NaN gives 0). -/
def f32_to_u8_sat (bits : Nat) : Nat :=
  match f32_val bits with
  | .nan => 0
  | .negInf => 0
  | .posInf => 255
  | .finite q => (max (rat_trunc q) 0).toNat.min 255

namespace Codec

/-- `Timing` of `src/timing.rs`; `bpm` is the `f32` bit pattern, which
the codec transports untouched. -/
structure Timing where
  ticks_per_beat : Nat
  bpm : Nat
  beats_per_meas : Nat
deriving DecidableEq, Repr

/-- `Timing::default()`: 480 ticks per beat, 120 bpm (`0x42F00000`),
4 beats per measure. -/
def Timing.default : Timing :=
  { ticks_per_beat := 480, bpm := 0x42F00000, beats_per_meas := 4 }

/-- `u32::div_ceil` for a nonzero divisor (the codec guards the zero
case as a panic before ever calling this). -/
def div_ceil (a b : Nat) : Nat :=
  a / b + (if a % b ≠ 0 then 1 else 0)

/-- `tick_to_meas` of `src/timing.rs`. -/
def tick_to_meas (tick : Nat) (t : Timing) : Nat :=
  div_ceil (div_ceil tick t.ticks_per_beat) t.beats_per_meas

/-- `LoopPoints` of `src/master.rs`; `last : Option NonZeroMeas` with
`none` meaning "play to the last event". -/
structure LoopPoints where
  repeatM : Nat
  lastM : Option Nat
deriving DecidableEq, Repr

/-- `Master` of `src/master.rs`. -/
structure Master where
  timing : Timing
  loop_points : LoopPoints
  meas_num : Nat
deriving DecidableEq, Repr

/-- `Master::default()`. -/
def Master.default : Master :=
  { timing := Timing.default, loop_points := { repeatM := 0, lastM := none },
    meas_num := 1 }

/-- `LoopPoints::from_ticks`. -/
def LoopPoints.from_ticks (repeat_tick last_tick : Nat) (t : Timing) : LoopPoints :=
  { repeatM := tick_to_meas repeat_tick t,
    lastM :=
      let lm := tick_to_meas last_tick t
      if lm = 0 then none else some lm }

/-- `Master::read_v5`: fixed 15-byte payload.  `u32::div_ceil` panics
on a zero divisor, so a zero `ticks_per_beat` or `beats_per_meas`
panics inside `LoopPoints::from_ticks`. -/
def Master.read_v5 (l : List Nat) : Except ProjectReadError (Master × List Nat) :=
  match next_u32 l with
  | none => .error .data
  | some (size, l1) =>
    if size ≠ 15 then .error .fmtUnknown
    else
      match next_u16 l1 with
      | none => .error .data
      | some (ticks_per_beat, l2) =>
        match next_u8 l2 with
        | none => .error .data
        | some (beats_per_meas, l3) =>
          match next_u32 l3 with
          | none => .error .data
          | some (bpm, l4) =>
            match next_u32 l4 with
            | none => .error .data
            | some (repeat_tick, l5) =>
              match next_u32 l5 with
              | none => .error .data
              | some (last_tick, l6) =>
                let timing : Timing :=
                  { ticks_per_beat := ticks_per_beat, bpm := bpm,
                    beats_per_meas := beats_per_meas }
                if ticks_per_beat = 0 ∨ beats_per_meas = 0 then .error .panicked
                else
                  .ok ({ timing := timing,
                         loop_points := LoopPoints.from_ticks repeat_tick last_tick timing,
                         meas_num := 1 }, l6)

/-- `Text` of `src/herd.rs`: song name and comment as the raw byte
strings moved through the (byte-preserving model of the) legacy
encoding. -/
structure Text where
  name : List Nat
  comment : List Nat
deriving DecidableEq, Repr

/-- `FmtVer` of `src/herd.rs`. -/
inductive FmtVer where
  | v1
  | v2
  | v3
  | v4
  | v5
deriving DecidableEq, Repr

/-- `FmtKind` of `src/herd.rs`. -/
inductive FmtKind where
  | collage
  | tune
deriving DecidableEq, Repr

/-- `FmtInfo` of `src/herd.rs`. -/
structure FmtInfo where
  ver : FmtVer
  kind : FmtKind
  exe_ver : Nat
  dummy : Nat
deriving DecidableEq, Repr

/-- `Song` of `src/herd.rs`. -/
structure Song where
  text : Text
  master : Master
  events : EveList
  fmt : FmtInfo
deriving DecidableEq, Repr

/-- The 8-byte tag codes (`Tag::to_code` constants) and 16-byte
version magics, byte for byte. -/
def codeAntiOPER : List Nat := [0x61, 0x6e, 0x74, 0x69, 0x4f, 0x50, 0x45, 0x52]

def codeAssiUNIT : List Nat := [0x61, 0x73, 0x73, 0x69, 0x55, 0x4e, 0x49, 0x54]

def codeAssiWOIC : List Nat := [0x61, 0x73, 0x73, 0x69, 0x57, 0x4f, 0x49, 0x43]

def codeEffeDELA : List Nat := [0x65, 0x66, 0x66, 0x65, 0x44, 0x45, 0x4c, 0x41]

def codeEffeOVER : List Nat := [0x65, 0x66, 0x66, 0x65, 0x4f, 0x56, 0x45, 0x52]

def codeEventV5 : List Nat := [0x45, 0x76, 0x65, 0x6e, 0x74, 0x20, 0x56, 0x35]

def codeMasterV5 : List Nat := [0x4d, 0x61, 0x73, 0x74, 0x65, 0x72, 0x56, 0x35]

def codeMateOGGV : List Nat := [0x6d, 0x61, 0x74, 0x65, 0x4f, 0x47, 0x47, 0x56]

def codeMatePCM : List Nat := [0x6d, 0x61, 0x74, 0x65, 0x50, 0x43, 0x4d, 0x20]

def codeMatePTN : List Nat := [0x6d, 0x61, 0x74, 0x65, 0x50, 0x54, 0x4e, 0x20]

def codeMatePTV : List Nat := [0x6d, 0x61, 0x74, 0x65, 0x50, 0x54, 0x56, 0x20]

def codeNumUNIT : List Nat := [0x6e, 0x75, 0x6d, 0x20, 0x55, 0x4e, 0x49, 0x54]

def codePxtoneND : List Nat := [0x70, 0x78, 0x74, 0x6f, 0x6e, 0x65, 0x4e, 0x44]

def codeTextCOMM : List Nat := [0x74, 0x65, 0x78, 0x74, 0x43, 0x4f, 0x4d, 0x4d]

def codeTextNAME : List Nat := [0x74, 0x65, 0x78, 0x74, 0x4e, 0x41, 0x4d, 0x45]

def codeV1End : List Nat := [0x45, 0x4e, 0x44, 0x3d, 0x3d, 0x3d, 0x3d, 0x3d]

def codeV1Event : List Nat := [0x45, 0x56, 0x45, 0x4e, 0x54, 0x3d, 0x3d, 0x3d]

def codeV1Pcm : List Nat := [0x6d, 0x61, 0x74, 0x65, 0x50, 0x43, 0x4d, 0x3d]

def codeV1Proj : List Nat := [0x50, 0x52, 0x4f, 0x4a, 0x45, 0x43, 0x54, 0x3d]

def codeV1Unit : List Nat := [0x55, 0x4e, 0x49, 0x54, 0x3d, 0x3d, 0x3d, 0x3d]

def codeV3Unit : List Nat := [0x70, 0x78, 0x74, 0x6e, 0x55, 0x4e, 0x49, 0x54]

def codeV4EvenMast : List Nat := [0x65, 0x76, 0x65, 0x6e, 0x4d, 0x41, 0x53, 0x54]

def codeV4EvenUnit : List Nat := [0x65, 0x76, 0x65, 0x6e, 0x55, 0x4e, 0x49, 0x54]

def magicV1Collage : List Nat := [0x50, 0x54, 0x43, 0x4f, 0x4c, 0x4c, 0x41, 0x47, 0x45, 0x2d, 0x30, 0x35, 0x30, 0x32, 0x32, 0x37]

def magicV2Collage : List Nat := [0x50, 0x54, 0x43, 0x4f, 0x4c, 0x4c, 0x41, 0x47, 0x45, 0x2d, 0x30, 0x35, 0x30, 0x36, 0x30, 0x38]

def magicV2Tune : List Nat := [0x50, 0x54, 0x54, 0x55, 0x4e, 0x45, 0x2d, 0x2d, 0x32, 0x30, 0x30, 0x35, 0x30, 0x36, 0x30, 0x38]

def magicV3Collage : List Nat := [0x50, 0x54, 0x43, 0x4f, 0x4c, 0x4c, 0x41, 0x47, 0x45, 0x2d, 0x30, 0x36, 0x30, 0x31, 0x31, 0x35]

def magicV3Tune : List Nat := [0x50, 0x54, 0x54, 0x55, 0x4e, 0x45, 0x2d, 0x2d, 0x32, 0x30, 0x30, 0x36, 0x30, 0x31, 0x31, 0x35]

def magicV4Collage : List Nat := [0x50, 0x54, 0x43, 0x4f, 0x4c, 0x4c, 0x41, 0x47, 0x45, 0x2d, 0x30, 0x36, 0x30, 0x39, 0x33, 0x30]

def magicV4Tune : List Nat := [0x50, 0x54, 0x54, 0x55, 0x4e, 0x45, 0x2d, 0x2d, 0x32, 0x30, 0x30, 0x36, 0x30, 0x39, 0x33, 0x30]

def magicV5Collage : List Nat := [0x50, 0x54, 0x43, 0x4f, 0x4c, 0x4c, 0x41, 0x47, 0x45, 0x2d, 0x30, 0x37, 0x31, 0x31, 0x31, 0x39]

def magicV5Tune : List Nat := [0x50, 0x54, 0x54, 0x55, 0x4e, 0x45, 0x2d, 0x2d, 0x32, 0x30, 0x30, 0x37, 0x31, 0x31, 0x31, 0x39]

/-- The 9-byte sentinel name `<no name>` (`Unit::new` / `Voice`
default). -/
def noNameBytes : List Nat := [0x3c, 0x6e, 0x6f, 0x20, 0x6e, 0x61, 0x6d, 0x65, 0x3e]

/-- `Tag` of `src/herd/io.rs`. -/
inductive Tag where
  | antiOPER
  | v1Proj
  | v1Unit
  | v1Pcm
  | v1Event
  | v1End
  | v3Unit
  | v4EvenMast
  | v4EvenUnit
  | numUNIT
  | masterV5
  | eventV5
  | matePCM
  | matePTV
  | matePTN
  | mateOGGV
  | effeDELA
  | effeOVER
  | textNAME
  | textCOMM
  | assiUNIT
  | assiWOIC
  | pxtoneND
deriving DecidableEq, Repr

/-- `Tag::from_code`. -/
def Tag.from_code (code : List Nat) : Option Tag :=
  if code = codeAntiOPER then some .antiOPER
  else if code = codeAssiUNIT then some .assiUNIT
  else if code = codeAssiWOIC then some .assiWOIC
  else if code = codeEffeDELA then some .effeDELA
  else if code = codeEffeOVER then some .effeOVER
  else if code = codeEventV5 then some .eventV5
  else if code = codeMasterV5 then some .masterV5
  else if code = codeMateOGGV then some .mateOGGV
  else if code = codeMatePCM then some .matePCM
  else if code = codeMatePTN then some .matePTN
  else if code = codeMatePTV then some .matePTV
  else if code = codeNumUNIT then some .numUNIT
  else if code = codePxtoneND then some .pxtoneND
  else if code = codeTextCOMM then some .textCOMM
  else if code = codeTextNAME then some .textNAME
  else if code = codeV1End then some .v1End
  else if code = codeV1Event then some .v1Event
  else if code = codeV1Pcm then some .v1Pcm
  else if code = codeV1Proj then some .v1Proj
  else if code = codeV1Unit then some .v1Unit
  else if code = codeV3Unit then some .v3Unit
  else if code = codeV4EvenMast then some .v4EvenMast
  else if code = codeV4EvenUnit then some .v4EvenUnit
  else none

/-- `Tag::to_code`. -/
def Tag.to_code : Tag → List Nat
  | .antiOPER => codeAntiOPER
  | .assiUNIT => codeAssiUNIT
  | .assiWOIC => codeAssiWOIC
  | .effeDELA => codeEffeDELA
  | .effeOVER => codeEffeOVER
  | .eventV5 => codeEventV5
  | .masterV5 => codeMasterV5
  | .mateOGGV => codeMateOGGV
  | .matePCM => codeMatePCM
  | .matePTN => codeMatePTN
  | .matePTV => codeMatePTV
  | .numUNIT => codeNumUNIT
  | .pxtoneND => codePxtoneND
  | .textCOMM => codeTextCOMM
  | .textNAME => codeTextNAME
  | .v1End => codeV1End
  | .v1Event => codeV1Event
  | .v1Pcm => codeV1Pcm
  | .v1Proj => codeV1Proj
  | .v1Unit => codeV1Unit
  | .v3Unit => codeV3Unit
  | .v4EvenMast => codeV4EvenMast
  | .v4EvenUnit => codeV4EvenUnit

/-- `DelayUnit` of `src/delay.rs`. -/
inductive DelayUnit where
  | beat
  | meas
  | second
deriving DecidableEq, Repr

/-- `Delay` of `src/delay.rs` as the codec sees it: `rate` is the
`u8`, `freq` the transported `f32` bit pattern; `offset`/`bufs` are
the playback state the codec initializes empty. -/
structure Delay where
  unit : DelayUnit
  group : Nat
  rate : Nat
  freq : Nat
  offset : Nat
  bufs : List Int × List Int
deriving DecidableEq, Repr

/-- `Overdrive` of `src/overdrive.rs` as the codec sees it:
`cut_percent`/`amp_mul` are the transported `f32` bit patterns. -/
structure Overdrive where
  on_ : Bool
  group : Nat
  cut_percent : Nat
  amp_mul : Nat
  cut_16bit_top : Int
deriving DecidableEq, Repr

/-- Bit patterns of the `f32` literals bounding
`Overdrive::CUT_VALID_RANGE = 50.0..=99.9` and
`AMP_VALID_RANGE = 0.1..=8.0`. -/
def cutRangeLo : Nat := 0x42480000

def cutRangeHi : Nat := 0x42C7CCCD

def ampRangeLo : Nat := 0x3DCCCCCD

def ampRangeHi : Nat := 0x41000000

/-- `read_delay` of `src/herd/io.rs`.  `IoDelay` is
`u16 unit, u16 group, f32 rate, f32 freq` behind a `u32 size == 12`
check; the delay list is an `ArrayVec<_, 4>` whose `push` panics when
full. -/
def read_delay (l : List Nat) (delays : List Delay) :
    Except ProjectReadError (List Delay × List Nat) :=
  match next_u32 l with
  | none => .error .data
  | some (size, l1) =>
    if size ≠ 12 then .error .fmtUnknown
    else
      match next_u16 l1 with
      | none => .error .data
      | some (unitv, l2) =>
        match next_u16 l2 with
        | none => .error .data
        | some (group, l3) =>
          match next_u32 l3 with
          | none => .error .data
          | some (rate_bits, l4) =>
            match next_u32 l4 with
            | none => .error .data
            | some (freq_bits, l5) =>
              match (match unitv with
                | 0 => some DelayUnit.beat
                | 1 => some DelayUnit.meas
                | 2 => some DelayUnit.second
                | _ => none) with
              | none => .error .fmtUnknown
              | some unit =>
                if group ≥ 2 ^ 8 then .error .panicked
                else
                  let delay : Delay :=
                    { unit := unit, group := group,
                      rate := f32_to_u8_sat rate_bits, freq := freq_bits,
                      offset := 0, bufs := ([], []) }
                  if delays.length < 4 then .ok (delays ++ [delay], l5)
                  else .error .panicked

/-- `read_overdrive` of `src/herd/io.rs`.  Both `rd.next()` calls use
`.unwrap()`, so a truncated record panics instead of producing a read
error.  `IoOverDrv` is `u16 xxx, u16 group, f32 cut, f32 amp, f32 yyy`
(the `yyy` field is read and discarded; the writer emits `0.0`). -/
def read_overdrive (l : List Nat) : Except ProjectReadError (Overdrive × List Nat) :=
  match next_u32 l with
  | none => .error .panicked
  | some (_size, l1) =>
    match next_u16 l1 with
    | none => .error .panicked
    | some (xxx, l2) =>
      match next_u16 l2 with
      | none => .error .panicked
      | some (group, l3) =>
        match next_u32 l3 with
        | none => .error .panicked
        | some (cut, l4) =>
          match next_u32 l4 with
          | none => .error .panicked
          | some (amp, l5) =>
            match next_u32 l5 with
            | none => .error .panicked
            | some (_yyy, l6) =>
              if xxx ≠ 0 then .error .fmtUnknown
              else if xxx ≠ 0 then .error .fmtUnknown
              else if ¬f32_range_contains cutRangeLo cutRangeHi cut then .error .fmtUnknown
              else if ¬f32_range_contains ampRangeLo ampRangeHi amp then .error .fmtUnknown
              else if group ≥ 2 ^ 8 then .error .panicked
              else
                .ok ({ cut_percent := cut, amp_mul := amp, group := group,
                       on_ := true, cut_16bit_top := 0 }, l6)

/-- The unit ("cow") as the codec sees it: serialization only reads
and writes the name (`Unit::new()` names the unit `<no name>`); the
playback-state fields of `src/unit.rs` are never touched by the
codec. -/
structure Unit where
  name : List Nat
deriving DecidableEq, Repr

/-- `Unit::new`. -/
def Unit.new : Unit :=
  { name := noNameBytes }

/-- `strlen` of `src/herd/io.rs`: index of the first NUL, or 16. -/
def strlen (buf : List Nat) : Nat :=
  match buf.findIdx? (fun b => b = 0) with
  | some i => i
  | none => 16

/-- `read_unit` of `src/herd/io.rs` (`assiUNIT`): `u32 size == 20`,
`u16 unit_index`, `u16 rrr == 0`, 16 name bytes. -/
def read_unit (l : List Nat) (units : List Unit) :
    Except ProjectReadError (List Unit × List Nat) :=
  match next_u32 l with
  | none => .error .data
  | some (size, l1) =>
    if size ≠ 20 then .error .fmtUnknown
    else
      match next_u16 l1 with
      | none => .error .data
      | some (unit_index, l2) =>
        match next_u16 l2 with
        | none => .error .data
        | some (rrr, l3) =>
          match next_bytes 16 l3 with
          | none => .error .data
          | some (name, l4) =>
            if rrr ≠ 0 then .error .fmtUnknown
            else if unit_index ≥ 2 ^ 8 then .error .fmtUnknown
            else if unit_index ≥ units.length then .error .fmtUnknown
            else
              .ok (units.set unit_index { name := name.take (strlen name) }, l4)

/-- `read_unit_num` of `src/herd/io.rs` (`num UNIT`): `u32 size == 4`,
`u16 num ≤ 50`, `u16 rrr == 0`. -/
def read_unit_num (l : List Nat) : Except ProjectReadError (Nat × List Nat) :=
  match next_u32 l with
  | none => .error .data
  | some (size, l1) =>
    if size ≠ 4 then .error .fmtUnknown
    else
      match next_u16 l1 with
      | none => .error .data
      | some (num, l2) =>
        match next_u16 l2 with
        | none => .error .data
        | some (rrr, l3) =>
          if rrr ≠ 0 then .error .fmtUnknown
          else if num > 50 then .error .fmtNewer
          else .ok (num, l3)

/-- Magic of an embedded `.ptvoice` blob (`PTVOICE-`). -/
def magicPTVOICE : List Nat := [0x50, 0x54, 0x56, 0x4f, 0x49, 0x43, 0x45, 0x2d]

/-- Magic of an embedded `PTNOISE-` blob. -/
def magicPTNOISE : List Nat := [0x50, 0x54, 0x4e, 0x4f, 0x49, 0x53, 0x45, 0x2d]

/-- An oscillator point (`OsciPt` of `src/pulse_oscillator.rs`):
`x : u16`, `y : i16`. -/
structure OsciPt where
  x : Nat
  y : Int
deriving DecidableEq, Repr

/-- An envelope point (`EnvPt` of `src/point.rs`): `x : u16`,
`y : u8`. -/
structure EnvPt where
  x : Nat
  y : Nat
deriving DecidableEq, Repr

/-- `EnvelopeSrc` of `src/voice.rs`. -/
structure EnvelopeSrc where
  seconds_per_point : Nat
  points : List EnvPt
deriving DecidableEq, Repr

/-- `WaveData` of `src/voice_data/wave.rs`. -/
inductive WaveData where
  | coord (points : List OsciPt) (resolution : Nat)
  | overtone (points : List OsciPt)
deriving DecidableEq, Repr

/-- `NoiseType` of `src/noise_builder.rs` (the wire ids live in
`read_oscillator`/`write_oscillator`). -/
inductive NoiseType where
  | sine
  | saw
  | rect
  | random
  | saw2
  | rect2
  | tri
  | random2
  | rect3
  | rect4
  | rect8
  | rect16
  | saw3
  | saw4
  | saw6
  | saw8
deriving DecidableEq, Repr

/-- `NoiseDesignOscillator`.  The source stores `freq`/`volume`/
`offset` as `f32` produced by `varint as f32 / 10.`; they are modelled
as the exact rationals `n / 10`, which the writer (`(x * 10.) as u32`)
maps back to `n`. -/
structure NoiseDesignOscillator where
  type_ : NoiseType
  invert : Bool
  freq : Rat
  volume : Rat
  offset : Rat
deriving DecidableEq, Repr

/-- Default oscillator (`Default` derive: `Sine`, not inverted,
zeros). -/
def NoiseDesignOscillator.default : NoiseDesignOscillator :=
  { type_ := .sine, invert := false, freq := 0, volume := 0, offset := 0 }

/-- `NoiseDesignUnit` of `src/voice_data/noise.rs`; `io_flags` is the
raw flag byte. -/
structure NoiseDesignUnit where
  enves : List EnvPt
  pan : Int
  main : NoiseDesignOscillator
  freq : NoiseDesignOscillator
  volu : NoiseDesignOscillator
  io_flags : Nat
deriving DecidableEq, Repr

/-- Default noise-design unit. -/
def NoiseDesignUnit.default : NoiseDesignUnit :=
  { enves := [], pan := 0, main := NoiseDesignOscillator.default,
    freq := NoiseDesignOscillator.default, volu := NoiseDesignOscillator.default,
    io_flags := 0 }

/-- `NoiseData` of `src/voice_data/noise.rs`. -/
structure NoiseData where
  smp_num_44k : Nat
  units : List NoiseDesignUnit
deriving DecidableEq, Repr

/-- `PcmData` of `src/voice_data/pcm.rs` (`ch ∈ {1,2}`,
`bps ∈ {8,16}`). -/
structure PcmData where
  ch : Nat
  sps : Nat
  bps : Nat
  num_samples : Nat
  smp : List Nat
deriving DecidableEq, Repr

/-- `OggVData` of `src/voice_data/oggv.rs`: raw container bytes plus
the `ch, sps2, smp_num` redundancy. -/
structure OggVData where
  raw_bytes : List Nat
  ch : Int
  sps2 : Int
  smp_num : Int
deriving DecidableEq, Repr

/-- `VoiceData` of `src/voice.rs`. -/
inductive VoiceData where
  | noise (d : NoiseData)
  | pcm (d : PcmData)
  | wave (d : WaveData)
  | oggv (d : OggVData)
deriving DecidableEq, Repr

/-- One voice slot (`VoiceUnit`/`VoiceSlot` of `src/voice.rs` —
`src/voice/io.rs` is mid-rename from `units` to `slots`); `tuning` is
the transported `f32` bit pattern, `flags` the raw `VoiceFlags`
bits. -/
structure VoiceUnit where
  basic_key : Int
  volume : Int
  pan : Int
  tuning : Nat
  flags : Nat
  data : VoiceData
  envelope : EnvelopeSrc
deriving DecidableEq, Repr

/-- The `..Default::default()` fill used by the voice readers (volume
and pan zero, empty envelope; the data field is always overwritten
where it matters). -/
def VoiceUnit.default : VoiceUnit :=
  { basic_key := 0, volume := 0, pan := 0, tuning := 0, flags := 0,
    data := .noise { smp_num_44k := 0, units := [] },
    envelope := { seconds_per_point := 0, points := [] } }

/-- `Voice` of `src/voice.rs` as the codec sees it. -/
structure Voice where
  slots : List VoiceUnit
  name : List Nat
deriving DecidableEq, Repr

/-- `Voice::from_unit`: a single slot with the `<no name>` default
name. -/
def Voice.from_unit (vu : VoiceUnit) : Voice :=
  { slots := [vu], name := noNameBytes }

/-- `read_oscillator` of `src/voice_data/noise.rs`.  Wave type `0`
panics (`panic!("None wave type detected")`), ids above 16 are
`FmtUnknown`. -/
def read_oscillator (l : List Nat) :
    Except ProjectReadError (NoiseDesignOscillator × List Nat) :=
  match next_varint l with
  | none => .error .data
  | some (wave_type, l1) =>
    match (match wave_type with
      | 0 => some none
      | 1 => some (some NoiseType.sine)
      | 2 => some (some NoiseType.saw)
      | 3 => some (some NoiseType.rect)
      | 4 => some (some NoiseType.random)
      | 5 => some (some NoiseType.saw2)
      | 6 => some (some NoiseType.rect2)
      | 7 => some (some NoiseType.tri)
      | 8 => some (some NoiseType.random2)
      | 9 => some (some NoiseType.rect3)
      | 10 => some (some NoiseType.rect4)
      | 11 => some (some NoiseType.rect8)
      | 12 => some (some NoiseType.rect16)
      | 13 => some (some NoiseType.saw3)
      | 14 => some (some NoiseType.saw4)
      | 15 => some (some NoiseType.saw6)
      | 16 => some (some NoiseType.saw8)
      | _ => none) with
    | none => .error .fmtUnknown
    | some none => .error .panicked
    | some (some type_) =>
      match next_varint l1 with
      | none => .error .data
      | some (inv, l2) =>
        match next_varint l2 with
        | none => .error .data
        | some (freq, l3) =>
          match next_varint l3 with
          | none => .error .data
          | some (volume, l4) =>
            match next_varint l4 with
            | none => .error .data
            | some (offset, l5) =>
              .ok ({ type_ := type_, invert := inv ≠ 0,
                     freq := (freq : Rat) / 10, volume := (volume : Rat) / 10,
                     offset := (offset : Rat) / 10 }, l5)

/-- `write_oscillator` of `src/voice_data/noise.rs`. -/
def write_oscillator (osc : NoiseDesignOscillator) : List Nat :=
  int_to_varint (match osc.type_ with
    | .sine => 1
    | .saw => 2
    | .rect => 3
    | .random => 4
    | .saw2 => 5
    | .rect2 => 6
    | .tri => 7
    | .random2 => 8
    | .rect3 => 9
    | .rect4 => 10
    | .rect8 => 11
    | .rect16 => 12
    | .saw3 => 13
    | .saw4 => 14
    | .saw6 => 15
    | .saw8 => 16) ++
  int_to_varint (if osc.invert then 1 else 0) ++
  int_to_varint (rat_trunc (osc.freq * 10)).toNat ++
  int_to_varint (rat_trunc (osc.volume * 10)).toNat ++
  int_to_varint (rat_trunc (osc.offset * 10)).toNat

/-- The per-point loop of the noise-design envelope reader: `x` must
fit `u16` and `y` must fit `u8` (`try_into().unwrap()`). -/
def read_noise_enves (n : Nat) (l : List Nat) :
    Except ProjectReadError (List EnvPt × List Nat) :=
  match n with
  | 0 => .ok ([], l)
  | n + 1 =>
    match next_varint l with
    | none => .error .data
    | some (x, l1) =>
      match next_varint l1 with
      | none => .error .data
      | some (y, l2) =>
        if x ≥ 2 ^ 16 ∨ y ≥ 2 ^ 8 then .error .panicked
        else
          match read_noise_enves n l2 with
          | .error e => .error e
          | .ok (pts, l3) => .ok ({ x := x, y := y } :: pts, l3)

/-- One `NoiseDesignUnit` of `NoiseData::read`. -/
def read_noise_unit (l : List Nat) :
    Except ProjectReadError (NoiseDesignUnit × List Nat) :=
  match next_varint l with
  | none => .error .data
  | some (flags32, l1) =>
    let flags := flags32 % 256
    if flags &&& 0x83 ≠ 0 then .error .fmtUnknown
    else
      let readEnv :
          Except ProjectReadError (List EnvPt × List Nat) :=
        if flags &&& 0x04 ≠ 0 then
          match next_varint l1 with
          | none => .error .data
          | some (enve_num, l2) =>
            if enve_num > 3 then .error .fmtUnknown
            else read_noise_enves enve_num l2
        else .ok ([], l1)
      match readEnv with
      | .error e => .error e
      | .ok (enves, l2) =>
        let readPan : Except ProjectReadError (Int × List Nat) :=
          if flags &&& 0x08 ≠ 0 then
            match next_i8 l2 with
            | none => .error .data
            | some (pan, l3) => .ok (pan, l3)
          else .ok (0, l2)
        match readPan with
        | .error e => .error e
        | .ok (pan, l3) =>
          let readOsc (bit : Nat) (l : List Nat) :
              Except ProjectReadError (NoiseDesignOscillator × List Nat) :=
            if flags &&& bit ≠ 0 then read_oscillator l
            else .ok (NoiseDesignOscillator.default, l)
          match readOsc 0x10 l3 with
          | .error e => .error e
          | .ok (main, l4) =>
            match readOsc 0x20 l4 with
            | .error e => .error e
            | .ok (freq, l5) =>
              match readOsc 0x40 l5 with
              | .error e => .error e
              | .ok (volu, l6) =>
                .ok ({ enves := enves, pan := pan, main := main, freq := freq,
                       volu := volu, io_flags := flags }, l6)

/-- The unit loop of `NoiseData::read`. -/
def read_noise_units (n : Nat) (l : List Nat) :
    Except ProjectReadError (List NoiseDesignUnit × List Nat) :=
  match n with
  | 0 => .ok ([], l)
  | n + 1 =>
    match read_noise_unit l with
    | .error e => .error e
    | .ok (u, l1) =>
      match read_noise_units n l1 with
      | .error e => .error e
      | .ok (us, l2) => .ok (u :: us, l2)

/-- `NoiseData::read`: `PTNOISE-` magic, `u32` version (max
`20120418`), varint `smp_num_44k`, `u8` unit count (max 4), then the
units. -/
def NoiseData.read (l : List Nat) :
    Except ProjectReadError (NoiseData × List Nat) :=
  match next_bytes 8 l with
  | none => .error .data
  | some (tag, l1) =>
    if tag ≠ magicPTNOISE then .error .invalidTag
    else
      match next_u32 l1 with
      | none => .error .data
      | some (ver, l2) =>
        if ver > 20120418 then .error .fmtNewer
        else
          match next_varint l2 with
          | none => .error .data
          | some (smp_num_44k, l3) =>
            match next_u8 l3 with
            | none => .error .data
            | some (unit_num, l4) =>
              if unit_num > 4 then .error .fmtUnknown
              else
                match read_noise_units unit_num l4 with
                | .error e => .error e
                | .ok (units, l5) =>
                  .ok ({ smp_num_44k := smp_num_44k, units := units }, l5)

/-- `NoiseData::write`. -/
def NoiseData.write (d : NoiseData) : List Nat :=
  magicPTNOISE ++ u32_le 20120418 ++ int_to_varint d.smp_num_44k ++
    [d.units.length] ++
    (d.units.map (fun u =>
      int_to_varint u.io_flags ++
      (if u.io_flags &&& 0x04 ≠ 0 then
        int_to_varint u.enves.length ++
          (u.enves.map (fun pt => int_to_varint pt.x ++ int_to_varint pt.y)).flatten
      else []) ++
      (if u.io_flags &&& 0x08 ≠ 0 then [i8_cast_unsigned u.pan] else []) ++
      (if u.io_flags &&& 0x10 ≠ 0 then write_oscillator u.main else []) ++
      (if u.io_flags &&& 0x20 ≠ 0 then write_oscillator u.freq else []) ++
      (if u.io_flags &&& 0x40 ≠ 0 then write_oscillator u.volu else []))).flatten

/-- The coord-point loop of `read_wave` (`x` from a `u8`, `y` from an
`i8`). -/
def read_coord_points (n : Nat) (l : List Nat) :
    Option (List OsciPt × List Nat) :=
  match n with
  | 0 => some ([], l)
  | n + 1 =>
    match next_u8 l with
    | none => none
    | some (x, l1) =>
      match next_i8 l1 with
      | none => none
      | some (y, l2) =>
        match read_coord_points n l2 with
        | none => none
        | some (pts, l3) => some ({ x := x, y := y } :: pts, l3)

/-- The overtone-point loop of `read_wave`: out-of-range varints map
to `OvertonePointOutOfRange`. -/
def read_overtone_points (n : Nat) (l : List Nat) :
    Except ProjectReadError (List OsciPt × List Nat) :=
  match n with
  | 0 => .ok ([], l)
  | n + 1 =>
    match next_varint l with
    | none => .error .data
    | some (x, l1) =>
      if x ≥ 2 ^ 16 then .error (.overtonePointOutOfRange x)
      else
        match next_varint l1 with
        | none => .error .data
        | some (y, l2) =>
          let ys := u32_cast_signed y
          if ys < -(2 ^ 15) ∨ ys ≥ 2 ^ 15 then .error (.overtonePointOutOfRange y)
          else
            match read_overtone_points n l2 with
            | .error e => .error e
            | .ok (pts, l3) => .ok ({ x := x, y := ys } :: pts, l3)

/-- `read_wave` of `src/voice/io.rs`.  Kind `0` is coord (resolution
must fit `u16`, `unwrap`), kind `1` overtone, anything else panics
(`panic!("Invalid/unsupported type")`). -/
def read_wave (l : List Nat) : Except ProjectReadError (WaveData × List Nat) :=
  match next_varint l with
  | none => .error .data
  | some (kind, l1) =>
    match kind with
    | 0 =>
      match next_varint l1 with
      | none => .error .data
      | some (num, l2) =>
        match next_varint l2 with
        | none => .error .data
        | some (reso, l3) =>
          if reso ≥ 2 ^ 16 then .error .panicked
          else
            match read_coord_points num l3 with
            | none => .error .data
            | some (pts, l4) => .ok (.coord pts reso, l4)
    | 1 =>
      match next_varint l1 with
      | none => .error .data
      | some (num, l2) =>
        match read_overtone_points num l2 with
        | .error e => .error e
        | .ok (pts, l3) => .ok (.overtone pts, l3)
    | _ => .error .panicked

/-- The point loop of `read_envelope` (`x` to `u16`, `y` to `u8`,
both `unwrap`). -/
def read_env_points (n : Nat) (l : List Nat) :
    Except ProjectReadError (List EnvPt × List Nat) :=
  match n with
  | 0 => .ok ([], l)
  | n + 1 =>
    match next_varint l with
    | none => .error .data
    | some (x, l1) =>
      match next_varint l1 with
      | none => .error .data
      | some (y, l2) =>
        if x ≥ 2 ^ 16 ∨ y ≥ 2 ^ 8 then .error .panicked
        else
          match read_env_points n l2 with
          | .error e => .error e
          | .ok (pts, l3) => .ok ({ x := x, y := y } :: pts, l3)

/-- `read_envelope` of `src/voice/io.rs`: `body_num` must be 0 and
`tail` must be 1. -/
def read_envelope (l : List Nat) :
    Except ProjectReadError (EnvelopeSrc × List Nat) :=
  match next_varint l with
  | none => .error .data
  | some (spp, l1) =>
    match next_varint l1 with
    | none => .error .data
    | some (head, l2) =>
      match next_varint l2 with
      | none => .error .data
      | some (body_num, l3) =>
        if body_num ≠ 0 then .error .fmtUnknown
        else
          match next_varint l3 with
          | none => .error .data
          | some (tail, l4) =>
            if tail ≠ 1 then .error .fmtUnknown
            else
              match read_env_points (head + body_num + tail) l4 with
              | .error e => .error e
              | .ok (pts, l5) =>
                .ok ({ seconds_per_point := spp, points := pts }, l5)

/-- One slot of `ptv_read`: basic key, volume, pan (both `i16`
`unwrap`s), tuning bits, flags, data flags, optional wave and
envelope. -/
def ptv_read_slot (l : List Nat) :
    Except ProjectReadError (VoiceUnit × List Nat) :=
  match next_varint l with
  | none => .error .data
  | some (basic_key, l1) =>
    match next_varint l1 with
    | none => .error .data
    | some (volume32, l2) =>
      let volume := u32_cast_signed volume32
      if volume < -(2 ^ 15) ∨ volume ≥ 2 ^ 15 then .error .panicked
      else
        match next_varint l2 with
        | none => .error .data
        | some (pan32, l3) =>
          let pan := u32_cast_signed pan32
          if pan < -(2 ^ 15) ∨ pan ≥ 2 ^ 15 then .error .panicked
          else
            match next_varint l3 with
            | none => .error .data
            | some (tuning, l4) =>
              match next_varint l4 with
              | none => .error .data
              | some (flags, l5) =>
                match next_varint l5 with
                | none => .error .data
                | some (data_flags, l6) =>
                  let readWave :
                      Except ProjectReadError (Option WaveData × List Nat) :=
                    if data_flags &&& 1 ≠ 0 then
                      match read_wave l6 with
                      | .error e => .error e
                      | .ok (w, l7) => .ok (some w, l7)
                    else .ok (none, l6)
                  match readWave with
                  | .error e => .error e
                  | .ok (wave, l7) =>
                    let readEnv :
                        Except ProjectReadError (EnvelopeSrc × List Nat) :=
                      if data_flags &&& 2 ≠ 0 then read_envelope l7
                      else .ok ({ seconds_per_point := 0, points := [] }, l7)
                    match readEnv with
                    | .error e => .error e
                    | .ok (env, l8) =>
                      .ok ({ basic_key := u32_cast_signed basic_key,
                             volume := volume, pan := pan, tuning := tuning,
                             flags := flags,
                             data := match wave with
                               | some w => .wave w
                               | none => VoiceUnit.default.data,
                             envelope := env }, l8)

/-- The slot loop of `ptv_read`. -/
def ptv_read_slots (n : Nat) (l : List Nat) :
    Except ProjectReadError (List VoiceUnit × List Nat) :=
  match n with
  | 0 => .ok ([], l)
  | n + 1 =>
    match ptv_read_slot l with
    | .error e => .error e
    | .ok (vu, l1) =>
      match ptv_read_slots n l1 with
      | .error e => .error e
      | .ok (vus, l2) => .ok (vu :: vus, l2)

/-- `ptv_read` of `src/voice/io.rs`: `PTVOICE-` magic, version at
most `20060111`, two reserved varints, then 1 or 2 slots. -/
def ptv_read (l : List Nat) : Except ProjectReadError (Voice × List Nat) :=
  match next_bytes 8 l with
  | none => .error .data
  | some (tag, l1) =>
    if tag ≠ magicPTVOICE then .error .invalidTag
    else
      match next_u32 l1 with
      | none => .error .data
      | some (ver, l2) =>
        if ver > 20060111 then .error .fmtNewer
        else
          match next_u32 l2 with
          | none => .error .data
          | some (_total, l3) =>
            match next_varint l3 with
            | none => .error .data
            | some (_x3x_basic, l4) =>
              match next_varint l4 with
              | none => .error .data
              | some (work1, l5) =>
                match next_varint l5 with
                | none => .error .data
                | some (work2, l6) =>
                  if work1 ≠ 0 ∨ work2 ≠ 0 then .error .fmtUnknown
                  else
                    match next_varint l6 with
                    | none => .error .data
                    | some (num, l7) =>
                      if num ≠ 1 ∧ num ≠ 2 then .error .fmtUnknown
                      else
                        match ptv_read_slots num l7 with
                        | .error e => .error e
                        | .ok (slots, l8) =>
                          .ok ({ slots := slots, name := noNameBytes }, l8)

/-- `Voice::read_mate_pcm`. -/
def read_mate_pcm (l : List Nat) : Except ProjectReadError (Voice × List Nat) :=
  match next_u32 l with
  | none => .error .data
  | some (_size, l1) =>
    match next_u16 l1 with
    | none => .error .data
    | some (_x3x_unit_no, l2) =>
      match next_u16 l2 with
      | none => .error .data
      | some (basic_key, l3) =>
        match next_u32 l3 with
        | none => .error .data
        | some (voice_flags, l4) =>
          match next_u8 l4 with
          | none => .error .data
          | some (ch, l5) =>
            match next_u16 l5 with
            | none => .error .data
            | some (bps, l6) =>
              match next_u16 l6 with
              | none => .error .data
              | some (sps, l7) =>
                match next_u32 l7 with
                | none => .error .data
                | some (tuning, l8) =>
                  match next_u32 l8 with
                  | none => .error .data
                  | some (data_size, l9) =>
                    if bps ≠ 8 ∧ bps ≠ 16 then .error .fmtUnknown
                    else if ch ≠ 1 ∧ ch ≠ 2 then .error .fmtUnknown
                    else
                      let num_samples := data_size / (bps / 8 * ch)
                      let buf_size := num_samples * bps * ch / 8
                      match next_bytes buf_size l9 with
                      | none => .error .data
                      | some (smp, l10) =>
                        .ok (Voice.from_unit
                          { VoiceUnit.default with
                            data := VoiceData.pcm { ch := ch, sps := sps, bps := bps, num_samples := num_samples, smp := smp },
                            flags := voice_flags,
                            basic_key := (basic_key : Int),
                            tuning := tuning }, l10)

/-- `Voice::read_mate_ptn`: `IoPtn` header (reserved `i32 rrr` in
`{0, 1}`) then the embedded `PTNOISE-` blob. -/
def read_mate_ptn (l : List Nat) : Except ProjectReadError (Voice × List Nat) :=
  match next_u32 l with
  | none => .error .data
  | some (_size, l1) =>
    match next_u16 l1 with
    | none => .error .data
    | some (_x3x_unit_no, l2) =>
      match next_u16 l2 with
      | none => .error .data
      | some (basic_key, l3) =>
        match next_u32 l3 with
        | none => .error .data
        | some (voice_flags, l4) =>
          match next_u32 l4 with
          | none => .error .data
          | some (tuning, l5) =>
            match next_u32 l5 with
            | none => .error .data
            | some (rrr32, l6) =>
              let rrr := u32_cast_signed rrr32
              if rrr > 1 ∨ rrr < 0 then .error .fmtUnknown
              else
                match NoiseData.read l6 with
                | .error e => .error e
                | .ok (noise, l7) =>
                  .ok (Voice.from_unit
                    { VoiceUnit.default with
                      data := .noise noise,
                      flags := voice_flags,
                      basic_key := (basic_key : Int),
                      tuning := tuning }, l7)

/-- `Voice::read_mate_ptv`: skip the `IoPtv` header, then the
embedded `.ptvoice` blob. -/
def read_mate_ptv (l : List Nat) : Except ProjectReadError (Voice × List Nat) :=
  match next_u32 l with
  | none => .error .data
  | some (_size, l1) =>
    match next_bytes 12 l1 with
    | none => .error .data
    | some (_ptv, l2) => ptv_read l2

/-- `Voice::read_ogg`, with the `oggv` feature disabled (the
spec-sanctioned `OggvSupportDisabled` outcome): the header fields are
read, a zero payload size is `InvalidData`, anything else reports the
missing feature. -/
def read_ogg (l : List Nat) : Except ProjectReadError (Voice × List Nat) :=
  match next_u32 l with
  | none => .error .data
  | some (_size, l1) =>
    match next_bytes 12 l1 with
    | none => .error .data
    | some (_io_oggv, l2) =>
      match next_u32 l2 with
      | none => .error .data
      | some (_ch, l3) =>
        match next_u32 l3 with
        | none => .error .data
        | some (_sps2, l4) =>
          match next_u32 l4 with
          | none => .error .data
          | some (_smp_num, l5) =>
            match next_u32 l5 with
            | none => .error .data
            | some (size, _l6) =>
              if size = 0 then .error .invalidData
              else .error .oggvSupportDisabled

/-- `read_voice` of `src/herd/io.rs` dispatching on the tag, pushing
the parsed voice. -/
def read_voice (l : List Nat) (voices : List Voice) (kind : Tag) :
    Except ProjectReadError (List Voice × List Nat) :=
  match (match kind with
    | .matePCM => read_mate_pcm l
    | .v1Pcm => read_mate_pcm l
    | .matePTV => read_mate_ptv l
    | .matePTN => read_mate_ptn l
    | _ => read_ogg l) with
  | .error e => .error e
  | .ok (v, l1) => .ok (voices ++ [v], l1)

/-- `read_assist_voice` of `src/herd/io.rs`: a non-`u8` voice index
is `FmtUnknown`; the `Vec` index panics when the voice does not
exist.  (`rrr != 0` only emits a warning.) -/
def read_assist_voice (l : List Nat) (voices : List Voice) :
    Except ProjectReadError (List Voice × List Nat) :=
  match next_u32 l with
  | none => .error .data
  | some (size, l1) =>
    if size ≠ 20 then .error .fmtUnknown
    else
      match next_u16 l1 with
      | none => .error .data
      | some (voice_idx, l2) =>
        match next_u16 l2 with
        | none => .error .data
        | some (_rrr, l3) =>
          match next_bytes 16 l3 with
          | none => .error .data
          | some (name, l4) =>
            if voice_idx ≥ 2 ^ 8 then .error .fmtUnknown
            else if voice_idx ≥ voices.length then .error .panicked
            else
              match voices.get? voice_idx with
              | none => .error .panicked
              | some v =>
                .ok (voices.set voice_idx
                  { v with name := name.take (strlen name) }, l4)

/-- `read_vec` of `src/herd/io.rs`: `u32` length then that many
bytes. -/
def read_vec (l : List Nat) : Option (List Nat × List Nat) :=
  match next_u32 l with
  | none => none
  | some (size, l1) => next_bytes size l1

/-- The herd as the codec sees it: the units, the delay and overdrive
effect lists (`ArrayVec` capacities 50/4/2); the Herd's playback
counters are untouched by serialization. -/
structure Herd where
  units : List Unit
  delays : List Delay
  overdrives : List Overdrive
deriving DecidableEq, Repr

/-- `Herd::default()`. -/
def Herd.default : Herd :=
  { units := [], delays := [], overdrives := [] }

/-- `MooInstructions` as the codec sees it: the voices (the output
sample rate and `samples_per_tick` play no part in serialization). -/
structure MooInstructions where
  voices : List Voice
deriving DecidableEq, Repr

/-- The `(Song, Herd, MooInstructions)` state `read_tune_items`
threads. -/
structure PState where
  song : Song
  herd : Herd
  ins : MooInstructions
deriving DecidableEq, Repr

/-- `read_version` of `src/herd/io.rs`: the 16-byte magic plus the
`exe_ver`/`dummy` `u16` pair. -/
def read_version (l : List Nat) : Except ProjectReadError (FmtInfo × List Nat) :=
  match next_bytes 16 l with
  | none => .error .data
  | some (version, l1) =>
    match (if version = magicV1Collage then some (FmtVer.v1, FmtKind.collage)
      else if version = magicV2Collage then some (FmtVer.v2, FmtKind.collage)
      else if version = magicV2Tune then some (FmtVer.v2, FmtKind.tune)
      else if version = magicV3Collage then some (FmtVer.v3, FmtKind.collage)
      else if version = magicV3Tune then some (FmtVer.v3, FmtKind.tune)
      else if version = magicV4Collage then some (FmtVer.v4, FmtKind.collage)
      else if version = magicV4Tune then some (FmtVer.v4, FmtKind.tune)
      else if version = magicV5Collage then some (FmtVer.v5, FmtKind.collage)
      else if version = magicV5Tune then some (FmtVer.v5, FmtKind.tune)
      else none) with
    | none => .error .fmtUnknown
    | some (ver, kind) =>
      match next_u16 l1 with
      | none => .error .data
      | some (exe_ver, l2) =>
        match next_u16 l2 with
        | none => .error .data
        | some (dummy, l3) =>
          .ok ({ ver := ver, kind := kind, exe_ver := exe_ver, dummy := dummy }, l3)

/-- The dispatch body of the `read_tune_items` loop for one parsed
tag.  Returns the new state, the remaining bytes and whether the
`pxtoneND`/`END=====` terminator was reached. -/
def read_tune_item (tag : Tag) (st : PState) (l : List Nat) :
    Except ProjectReadError (PState × List Nat × Bool) :=
  match tag with
  | .antiOPER => .error .antiOpreation
  | .numUNIT =>
    match read_unit_num l with
    | .error e => .error e
    | .ok (num, l1) =>
      if st.herd.units.length + num > 50 then .error .panicked
      else
        .ok ({ st with herd := { st.herd with
          units := st.herd.units ++ List.replicate num Unit.new } }, l1, false)
  | .masterV5 =>
    match Master.read_v5 l with
    | .error e => .error e
    | .ok (master, l1) =>
      .ok ({ st with song := { st.song with master := master } }, l1, false)
  | .eventV5 =>
    match EveList.read l with
    | .error e => .error e
    | .ok (events, l1) =>
      .ok ({ st with song := { st.song with events := events } }, l1, false)
  | .matePCM | .v1Pcm | .matePTV | .matePTN | .mateOGGV =>
    match read_voice l st.ins.voices tag with
    | .error e => .error e
    | .ok (voices, l1) =>
      .ok ({ st with ins := { voices := voices } }, l1, false)
  | .effeDELA =>
    match read_delay l st.herd.delays with
    | .error e => .error e
    | .ok (delays, l1) =>
      .ok ({ st with herd := { st.herd with delays := delays } }, l1, false)
  | .effeOVER =>
    match read_overdrive l with
    | .error e => .error e
    | .ok (ovr, l1) =>
      if st.herd.overdrives.length < 2 then
        .ok ({ st with herd := { st.herd with
          overdrives := st.herd.overdrives ++ [ovr] } }, l1, false)
      else .error .panicked
  | .textNAME =>
    match read_vec l with
    | none => .error .data
    | some (bytes, l1) =>
      .ok ({ st with song := { st.song with
        text := { st.song.text with name := bytes } } }, l1, false)
  | .textCOMM =>
    match read_vec l with
    | none => .error .data
    | some (bytes, l1) =>
      .ok ({ st with song := { st.song with
        text := { st.song.text with comment := bytes } } }, l1, false)
  | .assiWOIC =>
    match read_assist_voice l st.ins.voices with
    | .error e => .error e
    | .ok (voices, l1) =>
      .ok ({ st with ins := { voices := voices } }, l1, false)
  | .assiUNIT =>
    match read_unit l st.herd.units with
    | .error e => .error e
    | .ok (units, l1) =>
      .ok ({ st with herd := { st.herd with units := units } }, l1, false)
  | .pxtoneND | .v1End => .ok (st, l, true)
  | .v4EvenMast | .v4EvenUnit | .v3Unit | .v1Proj | .v1Unit | .v1Event =>
    .error .oldUnsupported

/-- The `while !end` loop of `read_tune_items`.  The loop consumes at
least the eight tag bytes per iteration, so the `data.length + 1`
fuel the caller supplies can never run out; the fuel-zero branch is
unreachable. -/
def read_tune_items_loop (fuel : Nat) (st : PState) (l : List Nat) :
    Except ProjectReadError (PState × List Nat) :=
  match fuel with
  | 0 => .error .data
  | fuel + 1 =>
    match next_bytes 8 l with
    | none => .error .data
    | some (code, l1) =>
      match Tag.from_code code with
      | none => .error .fmtUnknown
      | some tag =>
        match read_tune_item tag st l1 with
        | .error e => .error e
        | .ok (st', l2, true) => .ok (st', l2)
        | .ok (st', l2, false) => read_tune_items_loop fuel st' l2

/-- `io::read` of `src/herd/io.rs`: version header then the tag
loop. -/
def read (st : PState) (data : List Nat) : Except ProjectReadError PState :=
  match read_version data with
  | .error e => .error e
  | .ok (fmt, l1) =>
    match read_tune_items_loop (data.length + 1)
        { st with song := { st.song with fmt := fmt } } l1 with
    | .error e => .error e
    | .ok (st', _) => .ok st'

end Codec


/-! ## The playback engine (`src/herd/moo.rs`, `src/unit.rs`,
`src/delay.rs`, `src/overdrive.rs`, `src/voice.rs`)

The `Moo` namespace embeds the mooing (synthesis) loop.  Modelling
conventions, in addition to the global ones:

* `f32`/`f64` arithmetic is carried out exactly over `ℚ`; the claims
  settled against this namespace concern control flow (counters,
  indices, flags, buffer fill) and small-magnitude integer audio
  values for which the IEEE operations are exact.  `ℚ` division by
  zero yields `0` where IEEE would yield `±∞`/NaN; the float-to-int
  `as` casts (which saturate in Rust) are `sat_i32`/`sat_u32`, and the
  zero-divisor cases that the source reaches (`samples_per_tick == 0`
  in `current_tick`, `env_release_clock`) are special-cased to the
  IEEE outcome explicitly.
* Rust release-mode `i32` arithmetic wraps: `wrap32`.  `usize` is 64
  bits.  A Rust panic (indexing out of bounds, failed `try_into`
  `unwrap`, `i32` division by zero) is `Option.none`.
* `PULSE_FREQ` is a 3072-entry table of `f32` constants computed by a
  floating-point generator (see claim C8); the engine is parametrised
  by the table contents `pf : Nat → ℚ`, and the indexing logic of
  `PulseFrequency::get`/`get2` is embedded faithfully.
* `Herd`'s flag field is declared `moo_end` in `src/herd.rs` and
  referred to as `self.end` inside `src/herd/moo.rs`; it is one field,
  called `moo_end` here.
* `master` reaches `next_sample`/`do_event` only through
  `master.timing`, which is passed directly; the engine's `Timing`
  carries `bpm` as its numeric (`ℚ`) value.
* `VoiceInstance.sample_buf` is a byte buffer always viewed through
  `bytemuck::cast_slice::<u8, i16>`; it is modelled directly as the
  list of `i16` samples.
-/
namespace Moo

/-- Rust release-mode wrapping `i32` arithmetic: reduce into
`[-2^31, 2^31)`. -/
def wrap32 (n : Int) : Int := (n + 2 ^ 31) % 2 ^ 32 - 2 ^ 31

/-- Rust `f32`/`f64` → `i32` `as` cast: truncate toward zero,
saturating. -/
def sat_i32 (q : Rat) : Int := max (-(2 ^ 31)) (min (2 ^ 31 - 1) (rat_trunc q))

/-- Rust `f32`/`f64` → `u32` `as` cast: truncate toward zero,
saturating. -/
def sat_u32 (q : Rat) : Nat := (max 0 (min (2 ^ 32 - 1) (rat_trunc q))).toNat

/-- Rust `i32::saturating_sub`. -/
def satsub_i32 (a b : Int) : Int := max (-(2 ^ 31)) (min (2 ^ 31 - 1) (a - b))

/-- `u32 → i32` via `try_into().unwrap()`: panics for values ≥ 2^31. -/
def u32_try_i32 (n : Nat) : Option Int :=
  if n < 2 ^ 31 then some (n : Int) else none

/-- Rust `i32 as usize` (64-bit): two's-complement reinterpretation. -/
def i32_to_usize (n : Int) : Nat := (n % 2 ^ 64).toNat

/-- Rust `i32 as u8`: low byte. -/
def u8_of_i32 (n : Int) : Nat := (n % 256).toNat

/-- `i32::clamp(i16::MIN.into(), i16::MAX.into()) as i16`. -/
def clamp_i16 (n : Int) : Int := max (-32768) (min 32767 n)

/-- Two-channel pair access (`MAX_CHANNEL = 2`). -/
def pair_get (p : α × α) (ch : Nat) : α := if ch = 0 then p.1 else p.2

/-- Two-channel pair update. -/
def pair_set (p : α × α) (ch : Nat) (v : α) : α × α :=
  if ch = 0 then (v, p.2) else (p.1, v)

/-- Checked `Vec`/array write: Rust indexing panics out of bounds
(`List.set` alone would silently ignore the write). -/
def list_set_checked (l : List α) (i : Nat) (v : α) : Option (List α) :=
  if i < l.length then some (l.set i v) else none

/-- `Timing` as the engine consumes it (`bpm` as its numeric value). -/
structure Timing where
  ticks_per_beat : Nat
  bpm : Rat
  beats_per_meas : Nat
deriving DecidableEq

/-- `VoiceTone` of `src/voice.rs`. -/
structure VoiceTone where
  smp_pos : Rat
  offset_freq : Rat
  env_volume : Nat
  life_count : Int
  on_count : Int
  env_start : Nat
  env_pos : Nat
  env_release_clock : Nat
deriving DecidableEq

/-- `VoiceTone::default()`. -/
def VoiceTone.default : VoiceTone :=
  { smp_pos := 0, offset_freq := 0, env_volume := 0, life_count := 0,
    on_count := 0, env_start := 0, env_pos := 0, env_release_clock := 0 }

/-- `VoiceInstance` of `src/voice.rs` (the playback-relevant fields;
`sample_buf` is the `i16` view of the byte buffer). -/
structure VoiceInstance where
  num_samples : Nat
  sample_buf : List Int
  env : List Nat
  env_release : Nat
deriving DecidableEq

/-- `VoiceUnit` of `src/voice.rs`: the fields the playback paths read
(`flags` is the `VoiceFlags` bitset: 1 = WAVE_LOOP, 2 = SMOOTH,
4 = BEAT_FIT). -/
structure VoiceUnit where
  basic_key : Int
  tuning : Rat
  flags : Nat
deriving DecidableEq

/-- `VoiceFlags::WAVE_LOOP`. -/
def flag_wave_loop (flags : Nat) : Bool := flags &&& 1 ≠ 0

/-- `VoiceFlags::SMOOTH`. -/
def flag_smooth (flags : Nat) : Bool := flags &&& 2 ≠ 0

/-- `VoiceFlags::BEAT_FIT`. -/
def flag_beat_fit (flags : Nat) : Bool := flags &&& 4 ≠ 0

/-- `Voice` of `src/voice.rs` as the engine reads it. -/
structure Voice where
  units : List VoiceUnit
  insts : List VoiceInstance
deriving DecidableEq

/-- `Unit` of `src/unit.rs` (playback state; the `tones`, `pan_vols`,
`pan_time_offs` and `pan_time_bufs` arrays have two channels). -/
structure Unit where
  key_now : Int
  key_start : Int
  key_margin : Int
  porta_pos : Nat
  porta_destination : Nat
  pan_vols : Int × Int
  pan_time_offs : Nat × Nat
  pan_time_bufs : List Int × List Int
  volume : Int
  velocity : Int
  group : Nat
  tuning : Rat
  voice_idx : Nat
  tones : VoiceTone × VoiceTone
  mute : Bool
deriving DecidableEq

/-- `Delay` of `src/delay.rs` (the fields its tone functions touch;
`rebuild`, which only reallocates `bufs` from the `f32` frequency, is
not modelled). -/
structure Delay where
  group : Nat
  rate : Nat
  offset : Nat
  bufs : List Int × List Int
deriving DecidableEq

/-- `Overdrive` of `src/overdrive.rs` with its `f32` parameters as
exact rationals. -/
structure Overdrive where
  on_ : Bool
  group : Nat
  cut_percent : Rat
  amp_mul : Rat
  cut_16bit_top : Int
deriving DecidableEq

/-- `Herd` of `src/herd.rs` (playback fields). -/
structure Herd where
  moo_end : Bool
  loop_ : Bool
  smp_smooth : Nat
  smp_count : Nat
  smp_start : Nat
  smp_end : Nat
  smp_repeat : Nat
  smp_stride : Rat
  time_pan_index : Nat
  evt_idx : Nat
  units : List Unit
  delays : List Delay
  overdrives : List Overdrive
deriving DecidableEq

/-- `MooInstructions` of `src/herd.rs`. -/
structure MooInstructions where
  out_sample_rate : Nat
  voices : List Voice
  samples_per_tick : Rat
deriving DecidableEq

/-- `PulseFrequency::get` over the table contents `pf`: wrapping
`usize` index arithmetic, clamped to the last entry. -/
def pf_get (pf : Nat → Rat) (key : Nat) : Rat :=
  let i := (key + 0x6000) % 2 ^ 64 * 16 % 2 ^ 64 / 0x100
  pf (if i ≥ 3072 then 3071 else i)

/-- `PulseFrequency::get2`. -/
def pf_get2 (pf : Nat → Rat) (key : Nat) : Rat :=
  let i := key >>> 4
  pf (if i ≥ 3072 then 3071 else i)

/-- `moo::current_tick`: `(smp_count as f32 / samples_per_tick) as
u32`.  A zero `samples_per_tick` gives `±∞`/NaN in IEEE, which the
`u32` cast saturates to `u32::MAX` (or sends to `0` for NaN); a
negative one truncates to `0`. -/
def current_tick (h : Herd) (ins : MooInstructions) : Nat :=
  if ins.samples_per_tick = 0 then (if h.smp_count = 0 then 0 else 2 ^ 32 - 1)
  else sat_u32 ((h.smp_count : Rat) / ins.samples_per_tick)

/-- The per-(inst, tone) body of `Unit::tone_envelope`.  The release
branch panics when `env_release` fails `i32::try_from` or is zero
(Rust `i32` division by zero). -/
def tone_envelope_one (inst : VoiceInstance) (tone : VoiceTone) :
    Option VoiceTone :=
  if tone.life_count > 0 ∧ inst.env ≠ [] then
    if tone.on_count > 0 then
      match inst.env.get? tone.env_pos with
      | some v => some { tone with env_volume := v, env_pos := tone.env_pos + 1 }
      | none => some tone
    else
      if inst.env_release ≥ 2 ^ 31 ∨ inst.env_release = 0 then none
      else
        let ep := wrap32 (tone.env_pos : Int)
        let q := (wrap32 (-(tone.env_start : Int) * ep)).tdiv (inst.env_release : Int)
        some { tone with
          env_volume := u8_of_i32 (wrap32 ((tone.env_start : Int) + q)),
          env_pos := tone.env_pos + 1 }
  else some tone

/-- `zip(&voice.insts, &mut self.tones)`: the loop body runs for
`min insts.length 2` channels; the untouched tone keeps its value. -/
def tones_zip_envelope (insts : List VoiceInstance)
    (tones : VoiceTone × VoiceTone) : Option (VoiceTone × VoiceTone) :=
  match insts with
  | [] => some tones
  | [i0] =>
    match tone_envelope_one i0 tones.1 with
    | some t0 => some (t0, tones.2)
    | none => none
  | i0 :: i1 :: _ =>
    match tone_envelope_one i0 tones.1 with
    | some t0 =>
      match tone_envelope_one i1 tones.2 with
      | some t1 => some (t0, t1)
      | none => none
    | none => none

/-- `Unit::tone_envelope`. -/
def Unit.tone_envelope (u : Unit) (voices : List Voice) : Option Unit :=
  match voices.get? u.voice_idx with
  | none => some u
  | some voice =>
    match tones_zip_envelope voice.insts u.tones with
    | some tones => some { u with tones := tones }
    | none => none

/-- `Unit::tone_key_on` (release-mode wrapping add). -/
def Unit.tone_key_on (u : Unit) : Unit :=
  let key_now := wrap32 (u.key_start + u.key_margin)
  { u with key_now := key_now, key_start := key_now, key_margin := 0 }

/-- `Unit::tone_zero_lives`. -/
def Unit.tone_zero_lives (u : Unit) : Unit :=
  { u with tones := ({ u.tones.1 with life_count := 0 },
    { u.tones.2 with life_count := 0 }) }

/-- `Unit::tone_key`. -/
def Unit.tone_key (u : Unit) (key : Int) : Unit :=
  { u with
    key_start := u.key_now
    key_margin := wrap32 (key - u.key_now)
    porta_pos := 0 }

/-- `Unit::tone_pan_volume`. -/
def Unit.tone_pan_volume (u : Unit) (vol : Nat) : Unit :=
  if vol ≥ 64 then { u with pan_vols := (128 - (vol : Int), 64) }
  else { u with pan_vols := (64, (vol : Int)) }

/-- `calc_pan_time` of `src/unit.rs`: panics on a zero sample rate
(`u32` division by zero); an offset that does not fit a `u8` falls
back to `0`. -/
def calc_pan_time (offset : Nat) (out_sps : Nat) : Option Nat :=
  let o := if offset > 63 then 63 else offset
  if out_sps = 0 then none
  else
    let v := o * 44100 / out_sps
    some (if v < 256 then v else 0)

/-- `PanTime::to_lr_offsets`. -/
def pan_time_to_lr_offsets (pan_time : Nat) (sps : Nat) : Option (Nat × Nat) :=
  if pan_time ≥ 64 then
    match calc_pan_time (pan_time - 64) sps with
    | some l => some (l, 0)
    | none => none
  else
    match calc_pan_time (64 - pan_time) sps with
    | some r => some (0, r)
    | none => none

/-- `Unit::tone_pan_time`. -/
def Unit.tone_pan_time (u : Unit) (pan_time : Nat) (sps : Nat) : Option Unit :=
  match pan_time_to_lr_offsets pan_time sps with
  | some offs => some { u with pan_time_offs := offs }
  | none => none

/-- `Unit::tone_supple`: mix the pan-time buffer sample of channel
`ch` into the unit's group accumulator (wrapping `usize` subtraction,
masked into the 64-entry ring; Rust indexing panics feed the
`Option`). -/
def Unit.tone_supple (u : Unit) (group_smps : List Int) (ch : Nat)
    (time_pan_index : Nat) : Option (List Int) :=
  let off := pair_get u.pan_time_offs ch
  let idx := ((time_pan_index + 2 ^ 64 - off % 2 ^ 64) % 2 ^ 64) &&& 63
  match (pair_get u.pan_time_bufs ch).get? idx, group_smps.get? u.group with
  | some b, some g => list_set_checked group_smps u.group (wrap32 (g + b))
  | _, _ => none

/-- `Unit::tone_increment_key`: portamento slide (`f64` arithmetic,
`as i32` saturating truncation), returning the updated unit and the
key value. -/
def Unit.tone_increment_key (u : Unit) : Unit × Int :=
  if u.porta_destination ≠ 0 ∧ u.key_margin ≠ 0 then
    if u.porta_pos < u.porta_destination then
      let pos := u.porta_pos + 1
      let key_now := sat_i32 ((u.key_start : Rat) +
        (u.key_margin : Rat) * (pos : Rat) / (u.porta_destination : Rat))
      ({ u with porta_pos := pos, key_now := key_now }, key_now)
    else
      let key_now := wrap32 (u.key_start + u.key_margin)
      ({ u with key_now := key_now, key_start := key_now, key_margin := 0 },
        key_now)
  else
    let key_now := wrap32 (u.key_start + u.key_margin)
    ({ u with key_now := key_now }, key_now)

/-- The per-(inst, tone, vu) body of `Unit::tone_increment_sample`. -/
def tone_increment_sample_one (tuning freq : Rat) (inst : VoiceInstance)
    (vu : VoiceUnit) (tone : VoiceTone) : VoiceTone :=
  let tone : VoiceTone :=
    if tone.life_count > 0 then { tone with life_count := wrap32 (tone.life_count - 1) }
    else tone
  if tone.life_count > 0 then
    let tone : VoiceTone := { tone with
      on_count := wrap32 (tone.on_count - 1)
      smp_pos := tone.smp_pos + tone.offset_freq * tuning * freq }
    let tone : VoiceTone :=
      if tone.smp_pos ≥ (inst.num_samples : Rat) then
        if flag_wave_loop vu.flags then
          let tone : VoiceTone :=
            if tone.smp_pos ≥ (inst.num_samples : Rat) then
              { tone with smp_pos := tone.smp_pos - (inst.num_samples : Rat) }
            else tone
          if tone.smp_pos ≥ (inst.num_samples : Rat) then
            { tone with smp_pos := 0 }
          else tone
        else { tone with life_count := 0 }
      else tone
    if tone.on_count = 0 ∧ inst.env ≠ [] then
      { tone with env_start := tone.env_volume, env_pos := 0 }
    else tone
  else tone

/-- The `zip(zip(&voice.insts, &mut self.tones), &voice.units)` loop
of `tone_increment_sample`. -/
def tones_zip_increment (tuning freq : Rat) (insts : List VoiceInstance)
    (vus : List VoiceUnit) (tones : VoiceTone × VoiceTone) :
    VoiceTone × VoiceTone :=
  match insts, vus with
  | i0 :: irest, v0 :: vrest =>
    let t0 := tone_increment_sample_one tuning freq i0 v0 tones.1
    match irest, vrest with
    | i1 :: _, v1 :: _ =>
      (t0, tone_increment_sample_one tuning freq i1 v1 tones.2)
    | _, _ => (t0, tones.2)
  | _, _ => tones

/-- `Unit::tone_increment_sample`. -/
def Unit.tone_increment_sample (u : Unit) (freq : Rat) (voices : List Voice) :
    Unit :=
  match voices.get? u.voice_idx with
  | none => u
  | some voice =>
    { u with tones := tones_zip_increment u.tuning freq voice.insts voice.units u.tones }

/-- `Unit::set_voice`. -/
def Unit.set_voice (u : Unit) (idx : Nat) : Unit :=
  { u with
    voice_idx := idx
    key_now := 24576
    key_margin := 0
    key_start := 24576 }

/-- The per-(vu, inst, tone) body of `Unit::reset_voice`:
`env_release_clock = (env_release as f32 / samples_per_tick) as u32`
(IEEE `±∞`/NaN outcomes of a zero divisor made explicit), and
`offset_freq` from the BEAT_FIT flag or the pulse-frequency table. -/
def reset_voice_one (ins : MooInstructions) (timing : Timing)
    (pf : Nat → Rat) (vu : VoiceUnit) (inst : VoiceInstance)
    (tone : VoiceTone) : VoiceTone :=
  { tone with
    life_count := 0
    on_count := 0
    smp_pos := 0
    env_release_clock :=
      if ins.samples_per_tick = 0 then
        (if inst.env_release = 0 then 0 else 2 ^ 32 - 1)
      else sat_u32 ((inst.env_release : Rat) / ins.samples_per_tick)
    offset_freq :=
      if flag_beat_fit vu.flags then
        (inst.num_samples : Rat) * timing.bpm / (44100 * 60 * vu.tuning)
      else pf_get pf (i32_to_usize (wrap32 (17664 - vu.basic_key))) * vu.tuning }

/-- The `zip(zip(&voice.units, &voice.insts), &mut self.tones)` loop
of `reset_voice`. -/
def tones_zip_reset (ins : MooInstructions) (timing : Timing)
    (pf : Nat → Rat) (vus : List VoiceUnit) (insts : List VoiceInstance)
    (tones : VoiceTone × VoiceTone) : VoiceTone × VoiceTone :=
  match vus, insts with
  | v0 :: vrest, i0 :: irest =>
    let t0 := reset_voice_one ins timing pf v0 i0 tones.1
    match vrest, irest with
    | v1 :: _, i1 :: _ =>
      (t0, reset_voice_one ins timing pf v1 i1 tones.2)
    | _, _ => (t0, tones.2)
  | _, _ => tones

/-- `Unit::reset_voice`: out-of-bounds voice indices fall back to
voice 0. -/
def Unit.reset_voice (u : Unit) (ins : MooInstructions) (voice_idx : Nat)
    (timing : Timing) (pf : Nat → Rat) : Unit :=
  let vi := if voice_idx ≥ ins.voices.length then 0 else voice_idx
  let u := u.set_voice vi
  match ins.voices.get? vi with
  | none => u
  | some voice =>
    { u with tones := tones_zip_reset ins timing pf voice.units voice.insts u.tones }

/-- `Unit::tone_init`. -/
def Unit.tone_init (u : Unit) : Unit :=
  { u with
    group := 0
    velocity := 104
    volume := 104
    tuning := 1
    porta_destination := 0
    porta_pos := 0
    pan_vols := (64, 64)
    pan_time_offs := (0, 0) }

/-- `Herd::tune_cow_voices`. -/
def Herd.tune_cow_voices (h : Herd) (ins : MooInstructions) (timing : Timing)
    (pf : Nat → Rat) : Herd :=
  { h with units := h.units.map (fun u => (u.tone_init).reset_voice ins 0 timing pf) }

/-- Numeric value of a finite `f32` bit pattern (`Tuning` events carry
the bit pattern; a non-finite pattern is mapped to `0`, a case none of
the theorems below exercises). -/
def f32_q (bits : Nat) : Rat :=
  match f32_val bits with
  | .finite q => q
  | _ => 0

/-- The per-(tone, inst, vu) `work` contribution of
`Unit::tone_sample`.  The `smooth` division cannot divide by zero:
the branch requires `0 < life_count < smooth`. -/
def tone_sample_work (u : Unit) (smooth ch : Nat) (tone : VoiceTone)
    (inst : VoiceInstance) (vu : VoiceUnit) : Int :=
  if inst.sample_buf = [] then 0
  else if tone.life_count > 0 then
    let pos := wrap32 (sat_i32 tone.smp_pos * 4 + (ch : Int) * 2)
    let w0 : Int :=
      match inst.sample_buf.get? (i32_to_usize pos / 2) with
      | some w => w
      | none => 0
    let w1 := (wrap32 (w0 * u.velocity)).tdiv 128
    let w2 := (wrap32 (w1 * u.volume)).tdiv 128
    let w3 := (wrap32 (w2 * pair_get u.pan_vols ch)).tdiv 64
    let w4 :=
      if inst.env ≠ [] then (wrap32 (w3 * (tone.env_volume : Int))).tdiv 128
      else w3
    if flag_smooth vu.flags ∧ tone.life_count < (smooth : Int) then
      (wrap32 (w4 * tone.life_count)).tdiv (smooth : Int)
    else w4
  else 0

/-- One channel's `time_pan_buf` accumulation in `Unit::tone_sample`
(the zip runs for `min` of the lengths; `i32` accumulation wraps). -/
def tone_sample_buf (u : Unit) (smooth ch : Nat) (voice : Voice) : Int :=
  match voice.insts, voice.units with
  | [], _ => 0
  | _, [] => 0
  | [i0], v0 :: _ => wrap32 (tone_sample_work u smooth ch u.tones.1 i0 v0)
  | i0 :: _ :: _, [v0] => wrap32 (tone_sample_work u smooth ch u.tones.1 i0 v0)
  | i0 :: i1 :: _, v0 :: v1 :: _ =>
    wrap32 (wrap32 (tone_sample_work u smooth ch u.tones.1 i0 v0) +
      tone_sample_work u smooth ch u.tones.2 i1 v1)

/-- `Unit::tone_sample`: write both channels' pan-time buffers at
`time_pan_index` (a Rust array write that panics out of bounds). -/
def Unit.tone_sample (u : Unit) (time_pan_index smooth : Nat)
    (voices : List Voice) : Option Unit :=
  match voices.get? u.voice_idx with
  | none => some u
  | some voice =>
    match list_set_checked u.pan_time_bufs.1 time_pan_index
        (tone_sample_buf u smooth 0 voice),
      list_set_checked u.pan_time_bufs.2 time_pan_index
        (tone_sample_buf u smooth 1 voice) with
    | some buf0, some buf1 => some { u with pan_time_bufs := (buf0, buf1) }
    | _, _ => none

/-- `Overdrive::tone_supple` of `src/overdrive.rs`: clamp the group
sample into `±cut_16bit_top`, then multiply by `amp_mul` (`f32`
arithmetic, `as i32` saturating truncation). -/
def Overdrive.tone_supple (o : Overdrive) (group_smps : List Int) :
    Option (List Int) :=
  if !o.on_ then some group_smps
  else
    match group_smps.get? o.group with
    | none => none
    | some work0 =>
      let nt := wrap32 (-o.cut_16bit_top)
      let w :=
        if work0 > o.cut_16bit_top then o.cut_16bit_top
        else if work0 < nt then nt
        else work0
      list_set_checked group_smps o.group (sat_i32 ((w : Rat) * o.amp_mul))

/-- `Overdrive::rebuild`: `cut_16bit_top = (32767.0 * (100.0 -
cut_percent) / 100.0) as i32`. -/
def Overdrive.rebuild (o : Overdrive) : Overdrive :=
  { o with cut_16bit_top := sat_i32 (32767 * (100 - o.cut_percent) / 100) }

/-- `Delay::tone_supple`: an out-of-range offset resets itself and
skips; otherwise mix the delayed sample into the group and store the
result back into the ring. -/
def Delay.tone_supple (d : Delay) (ch : Nat) (group_smps : List Int) :
    Option (Delay × List Int) :=
  match (pair_get d.bufs ch).get? d.offset with
  | none => some ({ d with offset := 0 }, group_smps)
  | some b =>
    match group_smps.get? d.group with
    | none => none
    | some g =>
      let g1 := wrap32 (g + (wrap32 (b * (d.rate : Int))).tdiv 100)
      match list_set_checked group_smps d.group g1 with
      | none => none
      | some smps1 =>
        match list_set_checked (pair_get d.bufs ch) d.offset g1 with
        | none => none
        | some buf1 => some ({ d with bufs := pair_set d.bufs ch buf1 }, smps1)

/-- `Delay::tone_increment`. -/
def Delay.tone_increment (d : Delay) : Delay :=
  let o := d.offset + 1
  { d with offset := if o ≥ d.bufs.1.length then 0 else o }

/-- Is the payload an `On` event (`matches!(payload, On {..})`)? -/
def is_on_payload : EventPayload → Bool
  | .onEv _ => true
  | _ => false

/-- The scan for the next `On` event of the same unit in
`do_on_event` (`for i in herd.evt_idx + 1..events.eves.len()`); every
visited tick goes through `i32::try_from(..).unwrap()`.  The fuel is
the list length plus one, which the index walk can never exhaust. -/
def find_next_on (eves : List Event) (i : Nat) (c : Int) (u : Nat) :
    Nat → Option (Option Event)
  | 0 => some none
  | fuel + 1 =>
    match eves.get? i with
    | none => some none
    | some eve =>
      match u32_try_i32 eve.tick with
      | none => none
      | some t =>
        if t > c then some none
        else if eve.unit = u ∧ is_on_payload eve.payload then some (some eve)
        else find_next_on eves (i + 1) c u fuel

/-- The tail of the per-tone body of `do_on_event`: store the life
count and, if positive, restart the tone. -/
def on_event_finish (on_count : Int) (inst : VoiceInstance)
    (tone : VoiceTone) (lc : Int) : VoiceTone :=
  let tone := { tone with life_count := lc }
  if lc > 0 then
    { tone with
      on_count := on_count
      smp_pos := 0
      env_pos := 0
      env_volume := if inst.env = [] then 128 else 0
      env_start := if inst.env = [] then 128 else 0 }
  else tone

/-- The per-(inst, tone) body of `do_on_event`'s release handling. -/
def on_event_tone (h : Herd) (ins : MooInstructions) (events : EveList)
    (clockI durI tickI on_count : Int) (u : Nat) (inst : VoiceInstance)
    (tone : VoiceTone) : Option VoiceTone :=
  if inst.env_release ≠ 0 then
    let max1 := sat_i32 ((wrap32 (durI - wrap32 (clockI - tickI)) : Rat) *
      ins.samples_per_tick + (inst.env_release : Rat))
    match u32_try_i32 tone.env_release_clock with
    | none => none
    | some erc =>
      let c := wrap32 (wrap32 (tickI + durI) + erc)
      match find_next_on events.eves (h.evt_idx + 1) c u
          (events.eves.length + 1) with
      | none => none
      | some nextOpt =>
        let max2 :=
          match nextOpt with
          | some nxt =>
            sat_i32 ((wrap32 ((nxt.tick : Int) - clockI) : Rat) *
              ins.samples_per_tick)
          | none =>
            wrap32 (u32_cast_signed h.smp_end -
              sat_i32 ((clockI : Rat) * ins.samples_per_tick))
        some (on_event_finish on_count inst tone
          (if max1 < max2 then max1 else max2))
  else
    some (on_event_finish on_count inst tone
      (sat_i32 ((satsub_i32 durI (wrap32 (clockI - tickI)) : Rat) *
        ins.samples_per_tick)))

/-- The per-tone zip of `do_on_event`. -/
def on_event_tones (h : Herd) (ins : MooInstructions) (events : EveList)
    (clockI durI tickI on_count : Int) (u : Nat)
    (insts : List VoiceInstance) (tones : VoiceTone × VoiceTone) :
    Option (VoiceTone × VoiceTone) :=
  match insts with
  | [] => some tones
  | [i0] =>
    match on_event_tone h ins events clockI durI tickI on_count u i0 tones.1 with
    | some t0 => some (t0, tones.2)
    | none => none
  | i0 :: i1 :: _ =>
    match on_event_tone h ins events clockI durI tickI on_count u i0 tones.1 with
    | some t0 =>
      match on_event_tone h ins events clockI durI tickI on_count u i1 tones.2 with
      | some t1 => some (t0, t1)
      | none => none
    | none => none

/-- `do_on_event` of `src/herd/moo.rs`.  The `try_into().unwrap()`
conversions of the clock, duration and event ticks panic for values ≥
2^31. -/
def do_on_event (h : Herd) (ins : MooInstructions) (events : EveList)
    (clock duration : Nat) (u : Nat) (evt_tick : Nat) : Option Herd :=
  match h.units.get? u with
  | none => some h
  | some unit =>
    match u32_try_i32 clock, u32_try_i32 duration, u32_try_i32 evt_tick with
    | some clockI, some durI, some tickI =>
      let on_count := sat_i32 ((wrap32 (tickI + satsub_i32 durI clockI) : Rat) *
        ins.samples_per_tick)
      if on_count ≤ 0 then
        some { h with units := h.units.set u unit.tone_zero_lives }
      else
        let unit := unit.tone_key_on
        match ins.voices.get? unit.voice_idx with
        | none => some { h with units := h.units.set u unit }
        | some voice =>
          match on_event_tones h ins events clockI durI tickI on_count u
              voice.insts unit.tones with
          | none => none
          | some tones =>
            some { h with units := h.units.set u { unit with tones := tones } }
    | _, _, _ => none

/-- `do_event` of `src/herd/moo.rs`: dispatch one event; `false`
stands for `ControlFlow::Break` (out-of-range unit index or a `Null`
payload). -/
def do_event (h : Herd) (ins : MooInstructions) (events : EveList)
    (timing : Timing) (clock dst_sps : Nat) (pf : Nat → Rat) (evt : Event) :
    Option (Herd × Bool) :=
  match h.units.get? evt.unit with
  | none => some (h, false)
  | some unit =>
    match evt.payload with
    | .onEv duration =>
      match do_on_event h ins events clock duration evt.unit evt.tick with
      | some h1 => some (h1, true)
      | none => none
    | .key k =>
      some ({ h with units := h.units.set evt.unit (unit.tone_key k) }, true)
    | .panVol v =>
      some ({ h with units := h.units.set evt.unit (unit.tone_pan_volume v) }, true)
    | .panTime p =>
      match unit.tone_pan_time p dst_sps with
      | some unit1 => some ({ h with units := h.units.set evt.unit unit1 }, true)
      | none => none
    | .velocity v =>
      some ({ h with units := h.units.set evt.unit { unit with velocity := v } }, true)
    | .volume v =>
      some ({ h with units := h.units.set evt.unit { unit with volume := v } }, true)
    | .portament duration =>
      let unit1 := { unit with
        porta_destination := sat_u32 ((duration : Rat) * ins.samples_per_tick) }
      some ({ h with units := h.units.set evt.unit unit1 }, true)
    | .beatClock => some (h, true)
    | .beatTempo => some (h, true)
    | .beatNum => some (h, true)
    | .repeatEv => some (h, true)
    | .lastEv => some (h, true)
    | .ptcowDebug _ => some (h, true)
    | .setVoice n =>
      let unit1 := unit.reset_voice ins n timing pf
      some ({ h with units := h.units.set evt.unit unit1 }, true)
    | .setGroup g =>
      some ({ h with units := h.units.set evt.unit { unit with group := g } }, true)
    | .tuning bits =>
      let unit1 := { unit with tuning := f32_q bits }
      some ({ h with units := h.units.set evt.unit unit1 }, true)
    | .null => some (h, false)

/-- `do_next_event` of `src/herd/moo.rs`: dispatch the pending event
(a Rust index that panics out of bounds — callers guard it) and
advance `evt_idx` only on `Continue`. -/
def do_next_event (h : Herd) (ins : MooInstructions) (events : EveList)
    (timing : Timing) (clock dst_sps : Nat) (pf : Nat → Rat) :
    Option (Herd × Bool) :=
  match events.eves.get? h.evt_idx with
  | none => none
  | some evt =>
    match do_event h ins events timing clock dst_sps pf evt with
    | none => none
    | some (h1, true) => some ({ h1 with evt_idx := h1.evt_idx + 1 }, true)
    | some (h1, false) => some (h1, false)

/-- The `while herd.evt_idx < events.eves.len() && tick <= clock`
drain loop of `next_sample`.  The fuel is the event count plus one;
`evt_idx` grows by one per continuing iteration, so the fuel can never
run out. -/
def drain_events (ins : MooInstructions) (events : EveList) (timing : Timing)
    (clock dst_sps : Nat) (pf : Nat → Rat) : Nat → Herd → Option Herd
  | 0, h => some h
  | fuel + 1, h =>
    match events.eves.get? h.evt_idx with
    | none => some h
    | some evt =>
      if evt.tick ≤ clock then
        match do_next_event h ins events timing clock dst_sps pf with
        | none => none
        | some (h1, true) => drain_events ins events timing clock dst_sps pf fuel h1
        | some (h1, false) => some h1
      else some h

/-- The `tone_envelope` pass over all units. -/
def units_envelope (voices : List Voice) : List Unit → Option (List Unit)
  | [] => some []
  | u :: rest =>
    match u.tone_envelope voices, units_envelope voices rest with
    | some u1, some rest1 => some (u1 :: rest1)
    | _, _ => none

/-- The `tone_sample` pass over all units. -/
def units_sample (time_pan_index smooth : Nat) (voices : List Voice) :
    List Unit → Option (List Unit)
  | [] => some []
  | u :: rest =>
    match u.tone_sample time_pan_index smooth voices,
      units_sample time_pan_index smooth voices rest with
    | some u1, some rest1 => some (u1 :: rest1)
    | _, _ => none

/-- The per-channel unit mix loop (muted units are skipped). -/
def units_supple_ch (ch time_pan_index : Nat) :
    List Unit → List Int → Option (List Int)
  | [], smps => some smps
  | u :: rest, smps =>
    if u.mute then units_supple_ch ch time_pan_index rest smps
    else
      match u.tone_supple smps ch time_pan_index with
      | some smps1 => units_supple_ch ch time_pan_index rest smps1
      | none => none

/-- The overdrive pass over the group samples. -/
def overdrives_supple : List Overdrive → List Int → Option (List Int)
  | [], smps => some smps
  | o :: rest, smps =>
    match o.tone_supple smps with
    | some smps1 => overdrives_supple rest smps1
    | none => none

/-- The delay pass over the group samples (delays are mutated). -/
def delays_supple_ch (ch : Nat) :
    List Delay → List Int → Option (List Delay × List Int)
  | [], smps => some ([], smps)
  | d :: rest, smps =>
    match d.tone_supple ch smps with
    | some (d1, smps1) =>
      match delays_supple_ch ch rest smps1 with
      | some (rest1, smps2) => some (d1 :: rest1, smps2)
      | none => none
    | none => none

/-- `out_samp` accumulation (wrapping `i32` sum over the seven
groups). -/
def sum_groups (smps : List Int) : Int :=
  smps.foldl (fun a g => wrap32 (a + g)) 0

/-- One output channel of `next_sample`: fresh zeroed group samples,
unit mix, overdrives, delays, then the clamped `i16` output. -/
def channel_out (ch time_pan_index : Nat) (units : List Unit)
    (overdrives : List Overdrive) (delays : List Delay) :
    Option (List Delay × Int) :=
  match units_supple_ch ch time_pan_index units [0, 0, 0, 0, 0, 0, 0] with
  | none => none
  | some smps1 =>
    match overdrives_supple overdrives smps1 with
    | none => none
    | some smps2 =>
      match delays_supple_ch ch delays smps2 with
      | none => none
      | some (delays1, smps3) => some (delays1, clamp_i16 (sum_groups smps3))

/-- The key-increment/sample-increment pass over all units. -/
def units_increment (stride : Rat) (pf : Nat → Rat) (voices : List Voice)
    (units : List Unit) : List Unit :=
  units.map (fun u =>
    let p := u.tone_increment_key
    p.1.tone_increment_sample (pf_get2 pf (i32_to_usize p.2) * stride) voices)

/-- `next_sample` of `src/herd/moo.rs`.  Returns the new herd, the
stereo frame written into `out`, and the `bool` the source returns
(`false` means the stream ended on this very frame — note the frame
has already been written when that happens). -/
def next_sample (h : Herd) (ins : MooInstructions) (events : EveList)
    (timing : Timing) (dst_sps : Nat) (advance : Bool) (pf : Nat → Rat) :
    Option (Herd × (Int × Int) × Bool) :=
  match units_envelope ins.voices h.units with
  | none => none
  | some units1 =>
    let h := { h with units := units1 }
    match (if advance then
        drain_events ins events timing (current_tick h ins) dst_sps pf
          (events.eves.length + 1) h
      else some h) with
    | none => none
    | some h =>
      match units_sample h.time_pan_index h.smp_smooth ins.voices h.units with
      | none => none
      | some units2 =>
        let h := { h with units := units2 }
        match channel_out 0 h.time_pan_index h.units h.overdrives h.delays with
        | none => none
        | some (delays1, out0) =>
          match channel_out 1 h.time_pan_index h.units h.overdrives delays1 with
          | none => none
          | some (delays2, out1) =>
            let h := { h with delays := delays2 }
            let h :=
              if advance then { h with smp_count := (h.smp_count + 1) % 2 ^ 32 }
              else h
            let h := { h with time_pan_index := (h.time_pan_index + 1) &&& 63 }
            let h := { h with
              units := units_increment h.smp_stride pf ins.voices h.units }
            let h := { h with delays := h.delays.map Delay.tone_increment }
            if h.smp_count ≥ h.smp_end then
              if !h.loop_ then some (h, (out0, out1), false)
              else
                let h1 := { h with smp_count := h.smp_repeat, evt_idx := 0 }
                some (h1.tune_cow_voices ins timing pf, (out0, out1), true)
            else some (h, (out0, out1), true)

/-- The `for out_samp in buf.as_chunks_mut().0` loop of `Herd::moo`:
when `next_sample` returns `false` the (already written) frame is
kept, `moo_end` is set and the remaining frames are left untouched. -/
def moo_frames (ins : MooInstructions) (events : EveList) (timing : Timing)
    (advance : Bool) (pf : Nat → Rat) :
    Herd → List (Int × Int) → Option (Herd × List (Int × Int))
  | h, [] => some (h, [])
  | h, _frame :: rest =>
    match next_sample h ins events timing ins.out_sample_rate advance pf with
    | none => none
    | some (h1, out, true) =>
      match moo_frames ins events timing advance pf h1 rest with
      | some (h2, rest1) => some (h2, out :: rest1)
      | none => none
    | some (h1, out, false) => some ({ h1 with moo_end := true }, out :: rest)

/-- `Herd::moo` of `src/herd/moo.rs`: the buffer is the list of stereo
frames; the returned `Bool` is moo's return value, which is `false`
only when `moo_end` was already set on entry. -/
def Herd.moo (h : Herd) (ins : MooInstructions) (events : EveList)
    (timing : Timing) (buf : List (Int × Int)) (advance : Bool)
    (pf : Nat → Rat) : Option (Herd × List (Int × Int) × Bool) :=
  if h.moo_end then some (h, buf, false)
  else
    match moo_frames ins events timing advance pf h buf with
    | none => none
    | some (h1, buf1) => some (h1, buf1, true)

/-- Concrete test fixture: an idle herd with no units or effects,
positioned at sample 0 of a 10-sample stream. -/
def herd0 : Herd :=
  { moo_end := false, loop_ := false, smp_smooth := 0, smp_count := 0,
    smp_start := 0, smp_end := 10, smp_repeat := 0, smp_stride := 0,
    time_pan_index := 0, evt_idx := 0, units := [], delays := [],
    overdrives := [] }

/-- Concrete test fixture: instructions with no voices at 44100 Hz,
one sample per tick. -/
def ins0 : MooInstructions :=
  { out_sample_rate := 44100, voices := [], samples_per_tick := 1 }

/-- Concrete test fixture: default timing. -/
def timing0 : Timing :=
  { ticks_per_beat := 480, bpm := 120, beats_per_meas := 4 }

end Moo




theorem lor_two_pow_mul_eq_add (k a b : Nat) (h : a < 2 ^ k) :
    a ||| (2 ^ k * b) = a + 2 ^ k * b := by
  apply Nat.eq_of_testBit_eq
  intro i
  rw [Nat.testBit_lor]
  have hsh : 2 ^ k * b = b <<< k := by rw [Nat.shiftLeft_eq, Nat.mul_comm]
  rcases Nat.lt_or_ge i k with hik | hik
  · have h1 : (2 ^ k * b).testBit i = false := by
      rw [hsh, Nat.testBit_shiftLeft]
      simp [Nat.not_le.mpr hik]
    rw [h1, Bool.or_false]
    rw [Nat.testBit_to_div_mod, Nat.testBit_to_div_mod]
    have hk : 2 ^ k * b = 2 ^ i * (2 ^ (k - i) * b) := by
      rw [← Nat.mul_assoc, ← Nat.pow_add]
      congr 2
      omega
    rw [hk, Nat.add_mul_div_left _ _ (Nat.pos_pow_of_pos i (by norm_num))]
    have hki : 2 ^ (k - i) * b = 2 * (2 ^ (k - i - 1) * b) := by
      rw [← Nat.mul_assoc, ← Nat.pow_succ']
      congr 2
      omega
    rw [hki, Nat.add_mul_mod_self_left]
  · have h1 : a.testBit i = false := by
      apply Nat.testBit_eq_false_of_lt
      exact Nat.lt_of_lt_of_le h (Nat.pow_le_pow_right (by norm_num) hik)
    rw [h1, Bool.false_or]
    rw [hsh, Nat.testBit_shiftLeft]
    have hdec : (decide (i ≥ k) && b.testBit (i - k)) = b.testBit (i - k) := by
      simp [hik]
    rw [hdec]
    rw [Nat.testBit_to_div_mod, Nat.testBit_to_div_mod]
    have hdiv : (a + b <<< k) / 2 ^ i = b / 2 ^ (i - k) := by
      rw [Nat.shiftLeft_eq, Nat.mul_comm]
      have hsplit : (2 : Nat) ^ i = 2 ^ k * 2 ^ (i - k) := by
        rw [← Nat.pow_add]
        congr 1
        omega
      rw [hsplit, ← Nat.div_div_eq_div_mul,
        Nat.add_mul_div_left _ _ (Nat.pos_pow_of_pos k (by norm_num)),
        Nat.div_eq_of_lt h, Nat.zero_add]
    rw [hdiv]

theorem and127_eq_mod (x : Nat) : x &&& 127 = x % 128 := by
  have h := Nat.and_pow_two_sub_one_eq_mod x 7
  norm_num at h
  exact h

theorem and128_eq (x : Nat) : x &&& 128 = 128 * ((x / 128) % 2) := by
  have h := Nat.and_two_pow x 7
  rw [Nat.testBit_to_div_mod] at h
  norm_num at h
  rcases Nat.mod_two_eq_zero_or_one (x / 128) with h2 | h2 <;> simp [h2] at h ⊢ <;> omega

theorem or_pow7 (x m : Nat) (h : x < 128) : x ||| 128 * m = x + 128 * m := by
  have := lor_two_pow_mul_eq_add 7 x m (by norm_num; omega)
  norm_num at this
  exact this

theorem or_pow1 (x m : Nat) (h : x < 2) : x ||| 2 * m = x + 2 * m := by
  have := lor_two_pow_mul_eq_add 1 x m (by norm_num; omega)
  norm_num at this
  exact this

theorem or_pow2 (x m : Nat) (h : x < 4) : x ||| 4 * m = x + 4 * m := by
  have := lor_two_pow_mul_eq_add 2 x m (by norm_num; omega)
  norm_num at this
  exact this

theorem or_pow3 (x m : Nat) (h : x < 8) : x ||| 8 * m = x + 8 * m := by
  have := lor_two_pow_mul_eq_add 3 x m (by norm_num; omega)
  norm_num at this
  exact this

theorem or_pow4 (x m : Nat) (h : x < 16) : x ||| 16 * m = x + 16 * m := by
  have := lor_two_pow_mul_eq_add 4 x m (by norm_num; omega)
  norm_num at this
  exact this

theorem or_pow5 (x m : Nat) (h : x < 32) : x ||| 32 * m = x + 32 * m := by
  have := lor_two_pow_mul_eq_add 5 x m (by norm_num; omega)
  norm_num at this
  exact this

theorem or_pow6 (x m : Nat) (h : x < 64) : x ||| 64 * m = x + 64 * m := by
  have := lor_two_pow_mul_eq_add 6 x m (by norm_num; omega)
  norm_num at this
  exact this

theorem lor_eq_add_of (x y k : Nat) (hx : x < 2 ^ k) (hy : y % 2 ^ k = 0) :
    x ||| y = x + y := by
  obtain ⟨m, rfl⟩ := Nat.dvd_of_mod_eq_zero hy
  rw [lor_two_pow_mul_eq_add k x m hx]

/-- Closed arithmetic form of the one-byte encoding branch. -/
theorem int_to_varint_eq1 (n : Nat) (h : n < 0x80) :
    int_to_varint n = [n] := by
  unfold int_to_varint
  rw [if_pos h]
  norm_num
  omega

/-- Closed arithmetic form of the two-byte encoding branch. -/
theorem int_to_varint_eq2 (n : Nat) (h1 : 0x80 ≤ n) (h2 : n < 0x4000) :
    int_to_varint n = [n % 128 + 128, n / 128] := by
  unfold int_to_varint
  rw [if_neg (by omega), if_pos (by omega)]
  rw [Nat.shiftRight_eq_div_pow, Nat.shiftLeft_eq, and127_eq_mod, and127_eq_mod]
  norm_num
  constructor
  · rw [lor_eq_add_of (n % 128) 128 7 (by omega) (by omega)]
  · rw [lor_eq_add_of (n % 256 / 128) (n / 256 * 2 % 128) 1 (by omega) (by omega)]
    omega

/-- Closed arithmetic form of the three-byte encoding branch. -/
theorem int_to_varint_eq3 (n : Nat) (h1 : 0x4000 ≤ n) (h2 : n < 0x200000) :
    int_to_varint n = [n % 128 + 128, n / 128 % 128 + 128, n / 2 ^ 14] := by
  unfold int_to_varint
  rw [if_neg (by omega), if_neg (by omega), if_pos (by omega)]
  rw [Nat.shiftRight_eq_div_pow, Nat.shiftRight_eq_div_pow, Nat.shiftLeft_eq,
    Nat.shiftLeft_eq, and127_eq_mod, and127_eq_mod, and127_eq_mod]
  norm_num
  refine ⟨?_, ?_, ?_⟩
  · rw [lor_eq_add_of (n % 128) 128 7 (by omega) (by omega)]
  · rw [lor_eq_add_of (n % 256 / 128) (n / 256 * 2 % 128) 1 (by omega) (by omega)]
    rw [lor_eq_add_of (n % 256 / 128 + n / 256 * 2 % 128) 128 7 (by omega) (by omega)]
    omega
  · rw [lor_eq_add_of (n / 256 % 256 / 64) (n / 65536 * 4 % 128) 2
      (by omega) (by omega)]
    omega

/-- Closed arithmetic form of the four-byte encoding branch. -/
theorem int_to_varint_eq4 (n : Nat) (h1 : 0x200000 ≤ n) (h2 : n < 0x10000000) :
    int_to_varint n =
      [n % 128 + 128, n / 128 % 128 + 128, n / 2 ^ 14 % 128 + 128, n / 2 ^ 21] := by
  unfold int_to_varint
  rw [if_neg (by omega), if_neg (by omega), if_neg (by omega), if_pos (by omega)]
  rw [Nat.shiftRight_eq_div_pow, Nat.shiftRight_eq_div_pow, Nat.shiftRight_eq_div_pow,
    Nat.shiftLeft_eq, Nat.shiftLeft_eq, Nat.shiftLeft_eq,
    and127_eq_mod, and127_eq_mod, and127_eq_mod, and127_eq_mod]
  norm_num
  refine ⟨?_, ?_, ?_, ?_⟩
  · rw [lor_eq_add_of (n % 128) 128 7 (by omega) (by omega)]
  · rw [lor_eq_add_of (n % 256 / 128) (n / 256 * 2 % 128) 1 (by omega) (by omega)]
    rw [lor_eq_add_of (n % 256 / 128 + n / 256 * 2 % 128) 128 7 (by omega) (by omega)]
    omega
  · rw [lor_eq_add_of (n / 256 % 256 / 64) (n / 65536 * 4 % 128) 2
      (by omega) (by omega)]
    rw [lor_eq_add_of (n / 256 % 256 / 64 + n / 65536 * 4 % 128) 128 7
      (by omega) (by omega)]
    omega
  · rw [lor_eq_add_of (n / 65536 % 256 / 32) (n / 16777216 * 8 % 128) 3
      (by omega) (by omega)]
    omega

/-- Closed arithmetic form of the five-byte encoding branch. -/
theorem int_to_varint_eq5 (n : Nat) (h1 : 0x10000000 ≤ n) (h2 : n < 2 ^ 32) :
    int_to_varint n =
      [n % 128 + 128, n / 128 % 128 + 128, n / 2 ^ 14 % 128 + 128,
       n / 2 ^ 21 % 128 + 128, n / 2 ^ 28] := by
  unfold int_to_varint
  rw [if_neg (by omega), if_neg (by omega), if_neg (by omega), if_neg (by omega)]
  rw [Nat.shiftRight_eq_div_pow, Nat.shiftRight_eq_div_pow, Nat.shiftRight_eq_div_pow,
    Nat.shiftRight_eq_div_pow, Nat.shiftLeft_eq, Nat.shiftLeft_eq, Nat.shiftLeft_eq,
    and127_eq_mod, and127_eq_mod, and127_eq_mod, and127_eq_mod]
  norm_num
  refine ⟨?_, ?_, ?_, ?_, ?_⟩
  · rw [lor_eq_add_of (n % 128) 128 7 (by omega) (by omega)]
  · rw [lor_eq_add_of (n % 256 / 128) (n / 256 * 2 % 128) 1 (by omega) (by omega)]
    rw [lor_eq_add_of (n % 256 / 128 + n / 256 * 2 % 128) 128 7 (by omega) (by omega)]
    omega
  · rw [lor_eq_add_of (n / 256 % 256 / 64) (n / 65536 * 4 % 128) 2
      (by omega) (by omega)]
    rw [lor_eq_add_of (n / 256 % 256 / 64 + n / 65536 * 4 % 128) 128 7
      (by omega) (by omega)]
    omega
  · rw [lor_eq_add_of (n / 65536 % 256 / 32) (n / 16777216 * 8 % 128) 3
      (by omega) (by omega)]
    rw [lor_eq_add_of (n / 65536 % 256 / 32 + n / 16777216 * 8 % 128) 128 7
      (by omega) (by omega)]
    omega
  · omega

/-- Decoding inverts encoding on every `u32`. -/
theorem varint_to_int_int_to_varint (n : Nat) (h : n < 2 ^ 32) :
    varint_to_int (int_to_varint n) = some n := by
  rcases Nat.lt_or_ge n 0x80 with hr | hr
  · rw [int_to_varint_eq1 n hr]
    simp only [varint_to_int, u32_from_le, Option.some.injEq]
    rw [and127_eq_mod]
    omega
  rcases Nat.lt_or_ge n 0x4000 with hr2 | hr2
  · rw [int_to_varint_eq2 n hr hr2]
    unfold varint_to_int u32_from_le
    simp only [Option.some.injEq]
    rw [Nat.shiftLeft_eq, and127_eq_mod, and127_eq_mod, Nat.shiftRight_eq_div_pow]
    norm_num
    rw [lor_eq_add_of (n % 128) (n / 128 * 128 % 256) 7 (by omega) (by omega)]
    omega
  rcases Nat.lt_or_ge n 0x200000 with hr3 | hr3
  · rw [int_to_varint_eq3 n hr2 hr3]
    unfold varint_to_int u32_from_le
    simp only [Option.some.injEq]
    rw [Nat.shiftLeft_eq, Nat.shiftLeft_eq, and127_eq_mod, and127_eq_mod, and127_eq_mod,
      Nat.shiftRight_eq_div_pow, Nat.shiftRight_eq_div_pow]
    norm_num
    rw [lor_eq_add_of (n % 128) ((n / 128 % 128 + 128) * 128 % 256) 7
      (by omega) (by omega)]
    rw [lor_eq_add_of (n / 128 % 128 / 2) (n / 16384 * 64 % 256) 6
      (by omega) (by omega)]
    omega
  rcases Nat.lt_or_ge n 0x10000000 with hr4 | hr4
  · rw [int_to_varint_eq4 n hr3 hr4]
    unfold varint_to_int u32_from_le
    simp only [Option.some.injEq]
    rw [Nat.shiftLeft_eq, Nat.shiftLeft_eq, Nat.shiftLeft_eq,
      and127_eq_mod, and127_eq_mod, and127_eq_mod, and127_eq_mod,
      Nat.shiftRight_eq_div_pow, Nat.shiftRight_eq_div_pow, Nat.shiftRight_eq_div_pow]
    norm_num
    rw [lor_eq_add_of (n % 128) ((n / 128 % 128 + 128) * 128 % 256) 7
      (by omega) (by omega)]
    rw [lor_eq_add_of (n / 128 % 128 / 2)
      ((n / 16384 % 128 + 128) * 64 % 256) 6 (by omega) (by omega)]
    rw [lor_eq_add_of (n / 16384 % 128 / 4) (n / 2097152 * 32 % 256) 5
      (by omega) (by omega)]
    omega
  · rw [int_to_varint_eq5 n hr4 h]
    unfold varint_to_int u32_from_le
    simp only [Option.some.injEq]
    rw [Nat.shiftLeft_eq, Nat.shiftLeft_eq, Nat.shiftLeft_eq, Nat.shiftLeft_eq,
      and127_eq_mod, and127_eq_mod, and127_eq_mod, and127_eq_mod,
      Nat.shiftRight_eq_div_pow, Nat.shiftRight_eq_div_pow, Nat.shiftRight_eq_div_pow]
    norm_num
    rw [lor_eq_add_of (n % 128) ((n / 128 % 128 + 128) * 128 % 256) 7
      (by omega) (by omega)]
    rw [lor_eq_add_of (n / 128 % 128 / 2)
      ((n / 16384 % 128 + 128) * 64 % 256) 6 (by omega) (by omega)]
    rw [lor_eq_add_of (n / 16384 % 128 / 4)
      ((n / 2097152 % 128 + 128) * 32 % 256) 5 (by omega) (by omega)]
    rw [lor_eq_add_of (n / 2097152 % 128 / 8) (n / 268435456 * 16 % 256) 4
      (by omega) (by omega)]
    omega

/-- Any value decoded from a one-byte buffer is below `2 ^ 7`. -/
theorem varint_to_int_len1_lt (b0 v : Nat) (h : varint_to_int [b0] = some v) :
    v < 2 ^ 7 := by
  simp only [varint_to_int, u32_from_le, Option.some.injEq] at h
  rw [and127_eq_mod] at h
  omega

/-- Any value decoded from a two-byte buffer is below `2 ^ 14`. -/
theorem varint_to_int_len2_lt (b0 b1 v : Nat) (h : varint_to_int [b0, b1] = some v) :
    v < 2 ^ 14 := by
  simp only [varint_to_int, u32_from_le, Option.some.injEq] at h
  rw [Nat.shiftLeft_eq, and127_eq_mod, and127_eq_mod, Nat.shiftRight_eq_div_pow] at h
  norm_num at h
  rw [lor_eq_add_of (b0 % 128) (b1 * 128 % 256) 7 (by omega) (by omega)] at h
  omega

/-- Any value decoded from a three-byte buffer is below `2 ^ 21`. -/
theorem varint_to_int_len3_lt (b0 b1 b2 v : Nat)
    (h : varint_to_int [b0, b1, b2] = some v) : v < 2 ^ 21 := by
  simp only [varint_to_int, u32_from_le, Option.some.injEq] at h
  rw [Nat.shiftLeft_eq, Nat.shiftLeft_eq, and127_eq_mod, and127_eq_mod, and127_eq_mod,
    Nat.shiftRight_eq_div_pow, Nat.shiftRight_eq_div_pow] at h
  norm_num at h
  rw [lor_eq_add_of (b0 % 128) (b1 * 128 % 256) 7 (by omega) (by omega)] at h
  rw [lor_eq_add_of (b1 % 128 / 2) (b2 * 64 % 256) 6 (by omega) (by omega)] at h
  omega

/-- Any value decoded from a four-byte buffer is below `2 ^ 28`. -/
theorem varint_to_int_len4_lt (b0 b1 b2 b3 v : Nat)
    (h : varint_to_int [b0, b1, b2, b3] = some v) : v < 2 ^ 28 := by
  simp only [varint_to_int, u32_from_le, Option.some.injEq] at h
  rw [Nat.shiftLeft_eq, Nat.shiftLeft_eq, Nat.shiftLeft_eq,
    and127_eq_mod, and127_eq_mod, and127_eq_mod, and127_eq_mod,
    Nat.shiftRight_eq_div_pow, Nat.shiftRight_eq_div_pow, Nat.shiftRight_eq_div_pow] at h
  norm_num at h
  rw [lor_eq_add_of (b0 % 128) (b1 * 128 % 256) 7 (by omega) (by omega)] at h
  rw [lor_eq_add_of (b1 % 128 / 2) (b2 * 64 % 256) 6 (by omega) (by omega)] at h
  rw [lor_eq_add_of (b2 % 128 / 4) (b3 * 32 % 256) 5 (by omega) (by omega)] at h
  omega

/-- No strictly shorter buffer decodes to `n`: the produced encoding is
the shortest form. -/
theorem int_to_varint_shortest (n : Nat) (h : n < 2 ^ 32) (buf : List Nat)
    (hlen : buf.length < (int_to_varint n).length) : varint_to_int buf ≠ some n := by
  intro hdec
  rcases Nat.lt_or_ge n 0x80 with hr | hr
  · rw [int_to_varint_eq1 n hr] at hlen
    rcases buf with _ | ⟨b0, rest⟩
    · simp [varint_to_int] at hdec
    · simp only [List.length_cons, List.length_nil] at hlen
      omega
  rcases Nat.lt_or_ge n 0x4000 with hr2 | hr2
  · rw [int_to_varint_eq2 n hr hr2] at hlen
    rcases buf with _ | ⟨b0, _ | ⟨b1, rest⟩⟩
    · simp [varint_to_int] at hdec
    · have := varint_to_int_len1_lt b0 n hdec
      omega
    · simp only [List.length_cons, List.length_nil] at hlen
      omega
  rcases Nat.lt_or_ge n 0x200000 with hr3 | hr3
  · rw [int_to_varint_eq3 n hr2 hr3] at hlen
    rcases buf with _ | ⟨b0, _ | ⟨b1, _ | ⟨b2, rest⟩⟩⟩
    · simp [varint_to_int] at hdec
    · have := varint_to_int_len1_lt b0 n hdec
      omega
    · have := varint_to_int_len2_lt b0 b1 n hdec
      omega
    · simp only [List.length_cons, List.length_nil] at hlen
      omega
  rcases Nat.lt_or_ge n 0x10000000 with hr4 | hr4
  · rw [int_to_varint_eq4 n hr3 hr4] at hlen
    rcases buf with _ | ⟨b0, _ | ⟨b1, _ | ⟨b2, _ | ⟨b3, rest⟩⟩⟩⟩
    · simp [varint_to_int] at hdec
    · have := varint_to_int_len1_lt b0 n hdec
      omega
    · have := varint_to_int_len2_lt b0 b1 n hdec
      omega
    · have := varint_to_int_len3_lt b0 b1 b2 n hdec
      omega
    · simp only [List.length_cons, List.length_nil] at hlen
      omega
  · rw [int_to_varint_eq5 n hr4 h] at hlen
    rcases buf with _ | ⟨b0, _ | ⟨b1, _ | ⟨b2, _ | ⟨b3, _ | ⟨b4, rest⟩⟩⟩⟩⟩
    · simp [varint_to_int] at hdec
    · have := varint_to_int_len1_lt b0 n hdec
      omega
    · have := varint_to_int_len2_lt b0 b1 n hdec
      omega
    · have := varint_to_int_len3_lt b0 b1 b2 n hdec
      omega
    · have := varint_to_int_len4_lt b0 b1 b2 b3 n hdec
      omega
    · simp only [List.length_cons, List.length_nil] at hlen
      omega

/-- C2: for every `n` in `[0, 2^32)`, decoding the varint encoding of `n`
yields `n` (`varint_to_int (int_to_varint n) = n`), and the encoding is
canonical: no strictly shorter byte buffer decodes to `n`. -/
theorem varint_roundtrip_and_canonical (n : Nat) (h : n < 2 ^ 32) :
    varint_to_int (int_to_varint n) = some n ∧
      ∀ buf : List Nat, buf.length < (int_to_varint n).length →
        varint_to_int buf ≠ some n :=
  ⟨varint_to_int_int_to_varint n h,
   fun buf hlen => int_to_varint_shortest n h buf hlen⟩

/-- Witness for `varint_roundtrip_and_canonical` at `n = 0xFFFFFFFF`. -/
theorem varint_roundtrip_and_canonical_witness :
    varint_to_int (int_to_varint 0xFFFFFFFF) = some 0xFFFFFFFF ∧
      ∀ buf : List Nat, buf.length < (int_to_varint 0xFFFFFFFF).length →
        varint_to_int buf ≠ some 0xFFFFFFFF :=
  varint_roundtrip_and_canonical 0xFFFFFFFF (by norm_num)

/-! ### The `next_varint` loop (claim C6)

The loop reads at most five bytes and stops at the first byte whose
continuation bit is clear.  It does **not** reject a buffer whose
fifth byte still has the continuation bit set: after five bytes the
loop simply exits and `varint_to_int` succeeds on any 5-byte buffer
(the high bits of the fifth byte are discarded by the `<< 4` wrap).
-/

theorem next_varint_loop_drop (k : Nat) :
    ∀ acc rest buf rest', next_varint_loop k acc rest = some (buf, rest') →
      ∃ j ≤ k, rest' = rest.drop j := by
  induction k with
  | zero =>
    intro acc rest buf rest' hl
    simp only [next_varint_loop, Option.some.injEq, Prod.mk.injEq] at hl
    exact ⟨0, Nat.le_refl 0, hl.2.symm⟩
  | succ k ih =>
    intro acc rest buf rest' hl
    rcases rest with _ | ⟨b, r⟩
    · simp [next_varint_loop, next_u8] at hl
    · simp only [next_varint_loop, next_u8] at hl
      by_cases hb : b &&& 0x80 = 0
      · rw [if_pos hb] at hl
        simp only [Option.some.injEq, Prod.mk.injEq] at hl
        exact ⟨1, by omega, by simpa using hl.2.symm⟩
      · rw [if_neg hb] at hl
        obtain ⟨j, hj, hrest⟩ := ih (acc ++ [b]) r buf rest' hl
        exact ⟨j + 1, by omega, by simpa using hrest⟩

theorem next_varint_loop_first_clear (pre : List Nat) :
    ∀ k acc b suf, pre.length < k →
      (∀ x ∈ pre, x &&& 0x80 ≠ 0) → b &&& 0x80 = 0 →
      next_varint_loop k acc (pre ++ b :: suf) =
        some (acc ++ pre ++ [b], suf) := by
  induction pre with
  | nil =>
    intro k acc b suf hk _ hb
    rcases k with _ | k
    · omega
    · simp [next_varint_loop, next_u8, hb]
  | cons p ps ih =>
    intro k acc b suf hk hcont hb
    rcases k with _ | k
    · simp at hk
    · have hp : p &&& 0x80 ≠ 0 := hcont p (List.mem_cons_self p ps)
      simp only [List.cons_append, next_varint_loop, next_u8, if_neg hp]
      have := ih k (acc ++ [p]) b suf (by simp at hk ⊢; omega)
        (fun x hx => hcont x (List.mem_cons_of_mem p hx)) hb
      rw [this]
      simp

theorem next_varint_loop_all_cont (pre : List Nat) :
    ∀ acc suf, (∀ x ∈ pre, x &&& 0x80 ≠ 0) →
      next_varint_loop pre.length acc (pre ++ suf) = some (acc ++ pre, suf) := by
  induction pre with
  | nil =>
    intro acc suf _
    simp [next_varint_loop]
  | cons p ps ih =>
    intro acc suf hcont
    have hp : p &&& 0x80 ≠ 0 := hcont p (List.mem_cons_self p ps)
    simp only [List.length_cons, List.cons_append, next_varint_loop, next_u8, if_neg hp]
    have := ih (acc ++ [p]) suf (fun x hx => hcont x (List.mem_cons_of_mem p hx))
    rw [this]
    simp

/-- A buffer of one to five bytes always decodes to some value. -/
theorem varint_to_int_isSome_of_len (buf : List Nat) (h1 : 1 ≤ buf.length)
    (h5 : buf.length ≤ 5) : ∃ v, varint_to_int buf = some v := by
  rcases buf with _ | ⟨b0, _ | ⟨b1, _ | ⟨b2, _ | ⟨b3, _ | ⟨b4, _ | ⟨b5, r⟩⟩⟩⟩⟩⟩
  · simp at h1
  · exact ⟨_, rfl⟩
  · exact ⟨_, rfl⟩
  · exact ⟨_, rfl⟩
  · exact ⟨_, rfl⟩
  · exact ⟨_, rfl⟩
  · simp only [List.length_cons] at h5
    omega

/-- C6 (amended): `Reader::next_varint` consumes at most five bytes and
stops at the first byte whose continuation bit is clear.  When the first
five bytes all carry the continuation bit, the loop stops after those
five bytes and decoding **succeeds** (the input is not rejected). -/
theorem next_varint_reads_at_most_five (l : List Nat) :
    (∀ v rest, next_varint l = some (v, rest) → ∃ k ≤ 5, rest = l.drop k) ∧
    (∀ pre b suf, l = pre ++ b :: suf → pre.length ≤ 4 →
      (∀ x ∈ pre, x &&& 0x80 ≠ 0) → b &&& 0x80 = 0 →
      ∃ v, next_varint l = some (v, suf)) ∧
    (∀ pre suf, l = pre ++ suf → pre.length = 5 →
      (∀ x ∈ pre, x &&& 0x80 ≠ 0) →
      ∃ v, next_varint l = some (v, suf)) := by
  refine ⟨?_, ?_, ?_⟩
  · intro v rest hnv
    unfold next_varint at hnv
    rcases hl : next_varint_loop 5 [] l with _ | ⟨buf, rest'⟩
    · rw [hl] at hnv
      simp at hnv
    · rw [hl] at hnv
      obtain ⟨j, hj, hdrop⟩ := next_varint_loop_drop 5 [] l buf rest' hl
      rcases hv : varint_to_int buf with _ | w
      · simp [hv] at hnv
      · simp only [hv, Option.some.injEq, Prod.mk.injEq] at hnv
        exact ⟨j, hj, hnv.2 ▸ hdrop⟩
  · intro pre b suf hsplit hlen hcont hb
    have hloop := next_varint_loop_first_clear pre 5 [] b suf (by omega) hcont hb
    obtain ⟨v, hv⟩ := varint_to_int_isSome_of_len (([] : List Nat) ++ pre ++ [b])
      (by simp) (by simp; omega)
    rw [List.nil_append] at hv
    refine ⟨v, ?_⟩
    unfold next_varint
    rw [hsplit, hloop]
    simp [hv]
  · intro pre suf hsplit hlen hcont
    have hloop := next_varint_loop_all_cont pre [] suf hcont
    rw [hlen] at hloop
    obtain ⟨v, hv⟩ := varint_to_int_isSome_of_len (([] : List Nat) ++ pre)
      (by simp; omega) (by simp; omega)
    rw [List.nil_append] at hv
    refine ⟨v, ?_⟩
    unfold next_varint
    rw [hsplit, hloop]
    simp [hv]

/-- Witness for `next_varint_reads_at_most_five`: on `[0x81, 0x03, 9]`
the decoder stops after the second byte (the first with a clear
continuation bit) and leaves `[9]` unread. -/
theorem next_varint_reads_at_most_five_witness :
    ∃ v, next_varint [0x81, 0x03, 9] = some (v, [9]) :=
  (next_varint_reads_at_most_five [0x81, 0x03, 9]).2.1 [0x81] 0x03 [9]
    (by simp) (by simp) (by intro x hx; simp at hx; subst hx; decide) (by decide)

/-- Counterexample to C6 as stated: an input whose continuation bit is
still set after five bytes is *not* rejected as a decode error; the
decoder succeeds (here with value `0`), discarding the fifth byte's
high bits. -/
theorem next_varint_five_cont_not_error :
    next_varint [0x80, 0x80, 0x80, 0x80, 0x80] = some (0, []) := by
  decide


/-! ### Event list round-trip (claims C9, C3) -/

/-- Reading a varint off a stream that starts with a canonical
encoding consumes exactly the encoding. -/
theorem next_varint_int_to_varint (n : Nat) (h : n < 2 ^ 32) (rest : List Nat) :
    next_varint (int_to_varint n ++ rest) = some (n, rest) := by
  have hcont : ∀ x : Nat, x < 128 → (x + 128) &&& 128 ≠ 0 := by
    intro x hx
    rw [and128_eq]
    omega
  have hclear : ∀ x : Nat, x < 128 → x &&& 128 = 0 := by
    intro x hx
    rw [and128_eq]
    omega
  have hrt := varint_to_int_int_to_varint n h
  unfold next_varint
  rcases Nat.lt_or_ge n 0x80 with hr | hr
  · rw [int_to_varint_eq1 n hr] at hrt ⊢
    have hloop := next_varint_loop_first_clear [] 5 [] n rest (by simp)
      (by simp) (hclear n hr)
    simp only [List.nil_append] at hloop
    simp only [List.singleton_append]
    rw [hloop]
    simp only [List.nil_append]
    rw [hrt]
  rcases Nat.lt_or_ge n 0x4000 with hr2 | hr2
  · rw [int_to_varint_eq2 n hr hr2] at hrt ⊢
    have hloop := next_varint_loop_first_clear [n % 128 + 128] 5 [] (n / 128) rest
      (by simp) (by intro x hx; simp at hx; subst hx; exact hcont _ (by omega))
      (hclear _ (by omega))
    simp only [List.nil_append, List.cons_append, List.singleton_append] at hloop ⊢
    rw [hloop]
    simp only [List.append_assoc, List.singleton_append, List.nil_append] at hrt ⊢
    rw [hrt]
  rcases Nat.lt_or_ge n 0x200000 with hr3 | hr3
  · rw [int_to_varint_eq3 n hr2 hr3] at hrt ⊢
    have hloop := next_varint_loop_first_clear [n % 128 + 128, n / 128 % 128 + 128]
      5 [] (n / 2 ^ 14) rest (by simp)
      (by
        intro x hx
        simp at hx
        rcases hx with hx | hx <;> subst hx <;> exact hcont _ (by omega))
      (hclear _ (by omega))
    simp only [List.nil_append, List.cons_append, List.singleton_append] at hloop ⊢
    rw [hloop]
    simp only [List.append_assoc, List.singleton_append, List.nil_append] at hrt ⊢
    rw [hrt]
  rcases Nat.lt_or_ge n 0x10000000 with hr4 | hr4
  · rw [int_to_varint_eq4 n hr3 hr4] at hrt ⊢
    have hloop := next_varint_loop_first_clear
      [n % 128 + 128, n / 128 % 128 + 128, n / 2 ^ 14 % 128 + 128]
      5 [] (n / 2 ^ 21) rest (by simp)
      (by
        intro x hx
        simp at hx
        rcases hx with hx | hx | hx <;> subst hx <;> exact hcont _ (by omega))
      (hclear _ (by omega))
    simp only [List.nil_append, List.cons_append, List.singleton_append] at hloop ⊢
    rw [hloop]
    simp only [List.append_assoc, List.singleton_append, List.nil_append] at hrt ⊢
    rw [hrt]
  · rw [int_to_varint_eq5 n hr4 h] at hrt ⊢
    have hloop := next_varint_loop_first_clear
      [n % 128 + 128, n / 128 % 128 + 128, n / 2 ^ 14 % 128 + 128,
        n / 2 ^ 21 % 128 + 128]
      5 [] (n / 2 ^ 28) rest (by simp)
      (by
        intro x hx
        simp at hx
        rcases hx with hx | hx | hx | hx <;> subst hx <;> exact hcont _ (by omega))
      (hclear _ (by omega))
    simp only [List.nil_append, List.cons_append, List.singleton_append] at hloop ⊢
    rw [hloop]
    simp only [List.append_assoc, List.singleton_append, List.nil_append] at hrt ⊢
    rw [hrt]

/-- Reading a `u32` off a stream that starts with its little-endian
bytes recovers the value. -/
theorem next_u32_u32_le (n : Nat) (h : n < 2 ^ 32) (rest : List Nat) :
    next_u32 (u32_le n ++ rest) = some (n, rest) := by
  simp only [u32_le, List.cons_append, List.nil_append, next_u32, u32_from_le,
    Option.some.injEq, Prod.mk.injEq]
  refine ⟨?_, trivial⟩
  omega

/-- Every reparsable non-debug payload round-trips through the wire
pair: its value fits a `u32` and decodes back to the same payload. -/
theorem payload_kind_value_roundtrip (p : EventPayload) (hp : payload_reparsable p)
    (hnd : p.isDebug = false) :
    ∃ kind value, payload_kind_value p = some (kind, value) ∧ value < 2 ^ 32 ∧
      decode_event_payload kind value = .ok p := by
  cases p with
  | null => exact ⟨0, 0, rfl, by norm_num, rfl⟩
  | onEv d =>
    refine ⟨1, d, rfl, ?_, rfl⟩
    simpa [payload_reparsable] using hp
  | key k =>
    simp only [payload_reparsable] at hp
    refine ⟨2, i32_cast_unsigned k, rfl, ?_, ?_⟩
    · simp only [i32_cast_unsigned]
      omega
    · have hv : i32_cast_unsigned k = k.toNat := by
        simp only [i32_cast_unsigned]
        omega
      simp only [decode_event_payload, hv, if_pos (by omega : k.toNat < 2 ^ 31)]
      congr 1
      congr 1
      omega
  | panVol v =>
    simp only [payload_reparsable] at hp
    refine ⟨3, v, rfl, by omega, ?_⟩
    simp only [decode_event_payload]
    rw [if_pos hp]
  | velocity v =>
    simp only [payload_reparsable] at hp
    refine ⟨4, i16_cast_unsigned v, rfl, ?_, ?_⟩
    · simp only [i16_cast_unsigned]
      omega
    · have hv : i16_cast_unsigned v = v.toNat := by
        simp only [i16_cast_unsigned]
        omega
      have hs : u32_cast_signed v.toNat = v := by
        simp only [u32_cast_signed, if_pos (by omega : v.toNat < 2 ^ 31)]
        omega
      simp only [decode_event_payload, hv, hs]
      rw [if_pos (show -(2 ^ 15 : Int) ≤ v ∧ v < 2 ^ 15 by omega)]
  | volume v =>
    simp only [payload_reparsable] at hp
    refine ⟨5, i16_cast_unsigned v, rfl, ?_, ?_⟩
    · simp only [i16_cast_unsigned]
      omega
    · have hv : i16_cast_unsigned v = v.toNat := by
        simp only [i16_cast_unsigned]
        omega
      have hs : u32_cast_signed v.toNat = v := by
        simp only [u32_cast_signed, if_pos (by omega : v.toNat < 2 ^ 31)]
        omega
      simp only [decode_event_payload, hv, hs]
      rw [if_pos (show -(2 ^ 15 : Int) ≤ v ∧ v < 2 ^ 15 by omega)]
  | portament d =>
    refine ⟨6, d, rfl, ?_, rfl⟩
    simpa [payload_reparsable] using hp
  | beatClock => exact ⟨7, 0, rfl, by norm_num, rfl⟩
  | beatTempo => exact ⟨8, 0, rfl, by norm_num, rfl⟩
  | beatNum => exact ⟨9, 0, rfl, by norm_num, rfl⟩
  | repeatEv => exact ⟨10, 0, rfl, by norm_num, rfl⟩
  | lastEv => exact ⟨11, 0, rfl, by norm_num, rfl⟩
  | setVoice v =>
    simp only [payload_reparsable] at hp
    refine ⟨12, v, rfl, by omega, ?_⟩
    simp only [decode_event_payload]
    rw [if_pos hp]
  | setGroup g =>
    simp only [payload_reparsable] at hp
    refine ⟨13, g, rfl, by omega, ?_⟩
    simp only [decode_event_payload]
    rw [if_pos hp]
  | tuning bits =>
    refine ⟨14, bits, rfl, ?_, rfl⟩
    simpa [payload_reparsable] using hp
  | panTime v =>
    simp only [payload_reparsable] at hp
    refine ⟨15, v, rfl, by omega, ?_⟩
    simp only [decode_event_payload]
    rw [if_pos hp]
  | ptcowDebug v => simp [EventPayload.isDebug] at hnd

/-- Unfolding equation for the successor case of `read_events_loop`. -/
theorem read_events_loop_succ (n absolute : Nat) (acc : List Event) (l : List Nat) :
    read_events_loop (n + 1) absolute acc l =
      (match next_varint l with
      | none => .error .data
      | some (clock, l1) =>
        match next_u8 l1 with
        | none => .error .data
        | some (unit_no, l2) =>
          match next_u8 l2 with
          | none => .error .data
          | some (kind, l3) =>
            match next_varint l3 with
            | none => .error .data
            | some (value, l4) =>
              match decode_event_payload kind value with
              | .error e => .error e
              | .ok payload =>
                read_events_loop n ((absolute + clock) % 2 ^ 32)
                  (acc ++ [⟨payload, unit_no, (absolute + clock) % 2 ^ 32⟩]) l4) := rfl

/-- Reading back what `write_events` emitted reproduces the non-debug
events in order. -/
theorem read_events_loop_write_events (evs : List Event) :
    ∀ (absolute : Nat) (acc : List Event) (rest : List Nat),
      absolute < 2 ^ 32 →
      events_wf absolute evs →
      (∀ e ∈ evs, payload_reparsable e.payload) →
      read_events_loop (count_non_debug evs) absolute acc
          (write_events evs absolute ++ rest) =
        .ok (acc ++ evs.filter (fun e => !e.payload.isDebug), rest) := by
  induction evs with
  | nil =>
    intro absolute acc rest _ _ _
    simp [count_non_debug, write_events, read_events_loop]
  | cons e evs ih =>
    intro absolute acc rest habs hwf hrep
    by_cases hdbg : e.payload.isDebug
    · have hkv : payload_kind_value e.payload = none := by
        cases hp : e.payload <;> simp_all [EventPayload.isDebug, payload_kind_value]
      have hwf' : events_wf absolute evs := by
        simpa [events_wf, hdbg] using hwf
      simp only [count_non_debug, List.filter_cons, hdbg, Bool.not_true,
        write_events, hkv]
      have := ih absolute acc rest habs hwf'
        (fun x hx => hrep x (List.mem_cons_of_mem e hx))
      simpa [count_non_debug] using this
    · have hwf' := hwf
      simp only [events_wf, if_neg hdbg] at hwf'
      obtain ⟨htickge, hticklt, hunit, hwfrest⟩ := hwf'
      have hndb : e.payload.isDebug = false := by simpa using hdbg
      obtain ⟨kind, value, hkv, hvlt, hdec⟩ :=
        payload_kind_value_roundtrip e.payload
          (hrep e (List.mem_cons_self e evs)) hndb
      have hclock : (2 ^ 32 + e.tick - absolute) % 2 ^ 32 = e.tick - absolute := by
        omega
      simp only [count_non_debug, List.filter_cons, hndb, Bool.not_false,
        write_events, hkv, if_true, List.length_cons]
      simp only [List.append_assoc, List.singleton_append, List.cons_append,
        List.nil_append]
      rw [read_events_loop_succ, hclock,
        next_varint_int_to_varint (e.tick - absolute) (by omega)]
      simp only [next_u8]
      rw [next_varint_int_to_varint value hvlt]
      simp only [hdec]
      have habs' : (absolute + (e.tick - absolute)) % 2 ^ 32 = e.tick := by
        omega
      rw [habs']
      have := ih e.tick (acc ++ [⟨e.payload, e.unit, e.tick⟩]) rest hticklt hwfrest
        (fun x hx => hrep x (List.mem_cons_of_mem e hx))
      simp only [count_non_debug] at this
      rw [this]
      simp

/-- C9: after `EveList::sort` the ticks are non-decreasing; and an
event list with non-decreasing in-range ticks, byte-sized unit indices
and reparsable payload values serializes and reads back to the same
events in the same order with the same (recomputed) count, the
synthetic `PtcowDebug` events being dropped. -/
theorem evelist_sort_sorted_and_write_read_id (el : EveList) :
    List.Pairwise (fun a b : Event => a.tick ≤ b.tick) (EveList.sort el).eves ∧
    (el.ser_size < 2 ^ 32 → events_wf 0 el.eves →
      (∀ e ∈ el.eves, payload_reparsable e.payload) →
      count_non_debug el.eves < 2 ^ 32 →
      EveList.read (EveList.write el) =
        .ok ({ eves := el.eves.filter (fun e => !e.payload.isDebug),
               ser_size := el.ser_size }, [])) := by
  constructor
  · have hs := @List.sorted_mergeSort Event
      (fun a b : Event => decide (a.tick ≤ b.tick))
      (fun a b c hab hbc => by
        simp only [decide_eq_true_eq] at hab hbc ⊢
        omega)
      (fun a b => by
        simp only [Bool.or_eq_true, decide_eq_true_eq]
        omega)
      el.eves
    refine hs.imp ?_
    intro a b hab
    simpa using hab
  · intro hser hwf hrep hcount
    unfold EveList.write EveList.read
    rw [Nat.mod_eq_of_lt hcount, List.append_assoc]
    have h1 := next_u32_u32_le el.ser_size hser
      (u32_le (count_non_debug el.eves) ++ write_events el.eves 0)
    have h2 := next_u32_u32_le (count_non_debug el.eves) hcount
      (write_events el.eves 0)
    have h3 := read_events_loop_write_events el.eves 0 [] [] (by norm_num) hwf hrep
    simp only [List.append_nil, List.nil_append] at h3
    simp only [h1, h2, h3]

/-- Witness for `evelist_sort_sorted_and_write_read_id` on a two-event
list (an `On` then a `Key`). -/
theorem evelist_sort_sorted_and_write_read_id_witness :
    EveList.read (EveList.write { eves := [
        { payload := .onEv 480, unit := 0, tick := 0 },
        { payload := .key 24576, unit := 1, tick := 30 }], ser_size := 7 }) =
      .ok ({ eves := [
        { payload := .onEv 480, unit := 0, tick := 0 },
        { payload := .key 24576, unit := 1, tick := 30 }], ser_size := 7 }, []) := by
  have h := (evelist_sort_sorted_and_write_read_id { eves := [
      { payload := .onEv 480, unit := 0, tick := 0 },
      { payload := .key 24576, unit := 1, tick := 30 }], ser_size := 7 }).2
    (by norm_num)
    (by simp [events_wf, EventPayload.isDebug])
    (by
      intro e he
      simp at he
      rcases he with he | he <;> subst he <;> simp [payload_reparsable])
    (by simp [count_non_debug, EventPayload.isDebug])
  simpa [EventPayload.isDebug] using h

/-- Counterexample to C9 as universally stated: serializing the
single-event list `[Key (-1)]` (ticks trivially non-decreasing) and
reading it back panics on `value.try_into().unwrap()` instead of
reproducing the event. -/
theorem evelist_write_read_key_neg_panics :
    EveList.read (EveList.write
        { eves := [{ payload := .key (-1), unit := 0, tick := 0 }],
          ser_size := 0 }) = .error .panicked := by
  rfl


/-! ### Panics reachable from `read_song` (claim C3) -/

/-- C3: `read_song` does not always turn malformed input into an error
value.  An event record of kind 2 (Key) whose varint value is
`0xFFFFFFFF` (≥ 2^31) makes `EveList::read` panic on
`value.try_into().unwrap()` instead of reinterpreting the value as a
two's-complement `i32`, and a truncated `effeOVER` record at end of
input makes `read_overdrive` panic on `rd.next().unwrap()` instead of
producing an error result. -/
theorem evelist_read_key_high_and_read_overdrive_truncated_panic :
    EveList.read (u32_le 42 ++ u32_le 1 ++
        [0, 0, 2, 0xFF, 0xFF, 0xFF, 0xFF, 0x0F]) = .error .panicked ∧
    Codec.read_overdrive [] = .error .panicked := by
  exact ⟨rfl, rfl⟩


/-! ### Whole-file round-trip (claim C1) -/

namespace Codec

end Codec

namespace Moo

/-- `do_on_event` only rewrites the unit list (same length); every
other herd field survives. -/
theorem do_on_event_frame (h : Herd) (ins : MooInstructions)
    (events : EveList) (clock duration u evt_tick : Nat) (h1 : Herd)
    (hres : do_on_event h ins events clock duration u evt_tick = some h1) :
    h1 = { h with units := h1.units } ∧ h1.units.length = h.units.length := by
  unfold do_on_event at hres
  cases hu : h.units.get? u with
  | none =>
    simp only [hu, Option.some.injEq] at hres
    subst hres
    exact ⟨rfl, rfl⟩
  | some unit =>
    simp only [hu] at hres
    cases hc : u32_try_i32 clock with
    | none =>
      simp only [hc] at hres
      exact Option.noConfusion hres
    | some clockI =>
      cases hd : u32_try_i32 duration with
      | none =>
        simp only [hc, hd] at hres
        exact Option.noConfusion hres
      | some durI =>
        cases ht : u32_try_i32 evt_tick with
        | none =>
          simp only [hc, hd, ht] at hres
          exact Option.noConfusion hres
        | some tickI =>
          simp only [hc, hd, ht] at hres
          by_cases hoc : sat_i32 ((wrap32 (tickI + satsub_i32 durI clockI) : Rat) *
              ins.samples_per_tick) ≤ 0
          · rw [if_pos hoc] at hres
            simp only [Option.some.injEq] at hres
            subst hres
            exact ⟨rfl, by simp⟩
          · rw [if_neg hoc] at hres
            cases hv : ins.voices.get? (Unit.tone_key_on unit).voice_idx with
            | none =>
              simp only [hv, Option.some.injEq] at hres
              subst hres
              exact ⟨rfl, by simp⟩
            | some voice =>
              simp only [hv] at hres
              cases hot : on_event_tones h ins events clockI durI tickI
                  (sat_i32 ((wrap32 (tickI + satsub_i32 durI clockI) : Rat) *
                    ins.samples_per_tick)) u voice.insts
                  (Unit.tone_key_on unit).tones with
              | none =>
                simp only [hot] at hres
                exact Option.noConfusion hres
              | some tones =>
                simp only [hot, Option.some.injEq] at hres
                subst hres
                exact ⟨rfl, by simp⟩

/-- `do_event` only rewrites the unit list (same length); every other
herd field — in particular `evt_idx` and the sample counters —
survives. -/
theorem do_event_frame (h : Herd) (ins : MooInstructions) (events : EveList)
    (timing : Timing) (clock dst_sps : Nat) (pf : Nat → Rat) (evt : Event)
    (h1 : Herd) (b : Bool)
    (hres : do_event h ins events timing clock dst_sps pf evt = some (h1, b)) :
    h1 = { h with units := h1.units } ∧ h1.units.length = h.units.length := by
  unfold do_event at hres
  cases hu : h.units.get? evt.unit with
  | none =>
    simp only [hu, Option.some.injEq, Prod.mk.injEq] at hres
    obtain ⟨hh, -⟩ := hres
    subst hh
    exact ⟨rfl, rfl⟩
  | some unit =>
    simp only [hu] at hres
    cases hp : evt.payload with
    | onEv duration =>
      simp only [hp] at hres
      cases hdo : do_on_event h ins events clock duration evt.unit evt.tick with
      | none =>
        simp only [hdo] at hres
        exact Option.noConfusion hres
      | some h2 =>
        simp only [hdo, Option.some.injEq, Prod.mk.injEq] at hres
        obtain ⟨hh, -⟩ := hres
        subst hh
        exact do_on_event_frame h ins events clock duration evt.unit evt.tick h2 hdo
    | panTime p =>
      simp only [hp] at hres
      cases hpt : unit.tone_pan_time p dst_sps with
      | none =>
        simp only [hpt] at hres
        exact Option.noConfusion hres
      | some unit1 =>
        simp only [hpt, Option.some.injEq, Prod.mk.injEq] at hres
        obtain ⟨hh, -⟩ := hres
        subst hh
        exact ⟨rfl, by simp⟩
    | null =>
      simp only [hp, Option.some.injEq, Prod.mk.injEq] at hres
      obtain ⟨hh, -⟩ := hres
      subst hh
      exact ⟨rfl, rfl⟩
    | _ =>
      simp only [hp, Option.some.injEq, Prod.mk.injEq] at hres
      obtain ⟨hh, -⟩ := hres
      subst hh
      exact ⟨rfl, by simp⟩

/-- `do_next_event` preserves everything but the unit contents and
`evt_idx`, which grows by one exactly on `Continue`. -/
theorem do_next_event_frame (h : Herd) (ins : MooInstructions)
    (events : EveList) (timing : Timing) (clock dst_sps : Nat)
    (pf : Nat → Rat) (h1 : Herd) (b : Bool)
    (hres : do_next_event h ins events timing clock dst_sps pf =
      some (h1, b)) :
    h1 = { h with units := h1.units, evt_idx := h1.evt_idx } ∧
      h1.units.length = h.units.length ∧
      h1.evt_idx = (if b then h.evt_idx + 1 else h.evt_idx) := by
  unfold do_next_event at hres
  cases he : events.eves.get? h.evt_idx with
  | none =>
    simp only [he] at hres
    exact Option.noConfusion hres
  | some evt =>
    simp only [he] at hres
    cases hdo : do_event h ins events timing clock dst_sps pf evt with
    | none =>
      simp only [hdo] at hres
      exact Option.noConfusion hres
    | some p =>
      obtain ⟨h2, b2⟩ := p
      obtain ⟨hfr, hlen⟩ :=
        do_event_frame h ins events timing clock dst_sps pf evt h2 b2 hdo
      cases b2 with
      | true =>
        simp only [hdo, Option.some.injEq, Prod.mk.injEq] at hres
        obtain ⟨hh, hb⟩ := hres
        subst hh
        subst hb
        refine ⟨?_, by simpa using hlen, ?_⟩
        · rw [hfr]
        · rw [if_pos rfl]
          have : h2.evt_idx = h.evt_idx := by rw [hfr]
          simp [this]
      | false =>
        simp only [hdo, Option.some.injEq, Prod.mk.injEq] at hres
        obtain ⟨hh, hb⟩ := hres
        subst hh
        subst hb
        have hidx : h2.evt_idx = h.evt_idx := by rw [hfr]
        refine ⟨?_, hlen, ?_⟩
        · rw [hidx]
          exact hfr
        · rw [if_neg (by simp)]
          exact hidx

/-- The event drain loop preserves everything but the unit contents
and `evt_idx`. -/
theorem drain_events_frame (ins : MooInstructions) (events : EveList)
    (timing : Timing) (clock dst_sps : Nat) (pf : Nat → Rat) (fuel : Nat) :
    ∀ (h h1 : Herd),
      drain_events ins events timing clock dst_sps pf fuel h = some h1 →
      h1 = { h with units := h1.units, evt_idx := h1.evt_idx } ∧
        h1.units.length = h.units.length := by
  induction fuel with
  | zero =>
    intro h h1 hres
    simp only [drain_events, Option.some.injEq] at hres
    subst hres
    exact ⟨rfl, rfl⟩
  | succ fuel ih =>
    intro h h1 hres
    unfold drain_events at hres
    cases he : events.eves.get? h.evt_idx with
    | none =>
      simp only [he, Option.some.injEq] at hres
      subst hres
      exact ⟨rfl, rfl⟩
    | some evt =>
      simp only [he] at hres
      by_cases htick : evt.tick ≤ clock
      · rw [if_pos htick] at hres
        cases hdo : do_next_event h ins events timing clock dst_sps pf with
        | none =>
          simp only [hdo] at hres
          exact Option.noConfusion hres
        | some p =>
          obtain ⟨h2, b2⟩ := p
          obtain ⟨hfr, hlen, -⟩ :=
            do_next_event_frame h ins events timing clock dst_sps pf h2 b2 hdo
          cases b2 with
          | true =>
            simp only [hdo] at hres
            obtain ⟨hfr2, hlen2⟩ := ih h2 h1 hres
            constructor
            · rw [hfr2]
              conv_lhs => rw [hfr]
            · rw [hlen2, hlen]
          | false =>
            simp only [hdo, Option.some.injEq] at hres
            subst hres
            exact ⟨hfr, hlen⟩
      · rw [if_neg htick] at hres
        simp only [Option.some.injEq] at hres
        subst hres
        exact ⟨rfl, rfl⟩

/-- C5 (amended): `next_sample` advances the global sample counter
`smp_count` only when `advance` is true (wrapping `u32` increment,
then rewound to `smp_repeat` when the end of a looping stream is
reached — which can happen even with `advance = false`), but the
pan-time ring index `time_pan_index` is advanced to
`(time_pan_index + 1) mod 64` unconditionally, also when `advance` is
false. -/
theorem next_sample_counters (h : Herd) (ins : MooInstructions)
    (events : EveList) (timing : Timing) (dst_sps : Nat) (advance : Bool)
    (pf : Nat → Rat) (h' : Herd) (out : Int × Int) (cont : Bool)
    (hres : next_sample h ins events timing dst_sps advance pf =
      some (h', out, cont)) :
    h'.time_pan_index = (h.time_pan_index + 1) &&& 63 ∧
    h'.smp_count =
      (if (if advance then (h.smp_count + 1) % 2 ^ 32 else h.smp_count) ≥
          h.smp_end ∧ h.loop_ = true then h.smp_repeat
        else (if advance then (h.smp_count + 1) % 2 ^ 32 else h.smp_count)) := by
  unfold next_sample at hres
  cases henv : units_envelope ins.voices h.units with
  | none =>
    simp only [henv] at hres
    exact Option.noConfusion hres
  | some units1 =>
    simp only [henv] at hres
    set hA : Herd := { h with units := units1 } with hAdef
    cases hdr : (if advance then
        drain_events ins events timing (current_tick hA ins) dst_sps pf
          (events.eves.length + 1) hA
      else some hA) with
    | none =>
      simp only [hdr] at hres
      exact Option.noConfusion hres
    | some hB =>
      have hBfr : hB.smp_count = h.smp_count ∧
          hB.time_pan_index = h.time_pan_index ∧ hB.smp_end = h.smp_end ∧
          hB.smp_repeat = h.smp_repeat ∧ hB.loop_ = h.loop_ := by
        cases advance with
        | false =>
          rw [if_neg (by simp)] at hdr
          simp only [Option.some.injEq] at hdr
          subst hdr
          exact ⟨rfl, rfl, rfl, rfl, rfl⟩
        | true =>
          rw [if_pos rfl] at hdr
          obtain ⟨hfr, -⟩ := drain_events_frame ins events timing
            (current_tick hA ins) dst_sps pf (events.eves.length + 1) hA hB hdr
          rw [hfr]
          exact ⟨rfl, rfl, rfl, rfl, rfl⟩
      obtain ⟨hsc, htpi, hse, hsr, hlp⟩ := hBfr
      simp only [hdr] at hres
      cases hsm : units_sample hB.time_pan_index hB.smp_smooth ins.voices
          hB.units with
      | none =>
        simp only [hsm] at hres
        exact Option.noConfusion hres
      | some units2 =>
        simp only [hsm] at hres
        cases hch0 : channel_out 0 hB.time_pan_index units2 hB.overdrives
            hB.delays with
        | none =>
          simp only [hch0] at hres
          exact Option.noConfusion hres
        | some p0 =>
          obtain ⟨delays1, out0⟩ := p0
          simp only [hch0] at hres
          cases hch1 : channel_out 1 hB.time_pan_index units2 hB.overdrives
              delays1 with
          | none =>
            simp only [hch1] at hres
            exact Option.noConfusion hres
          | some p1 =>
            obtain ⟨delays2, out1⟩ := p1
            simp only [hch1] at hres
            cases advance with
            | false =>
              simp only [Bool.false_eq_true, if_false] at hres ⊢
              by_cases hend : hB.smp_count ≥ hB.smp_end
              · rw [if_pos hend] at hres
                cases hl : hB.loop_ with
                | false =>
                  rw [hl] at hres
                  simp only [Bool.not_false, eq_self_iff_true, if_true,
                    Option.some.injEq, Prod.mk.injEq] at hres
                  obtain ⟨hh, -⟩ := hres
                  subst hh
                  rw [← hsc, ← htpi, ← hse, ← hlp]
                  refine ⟨rfl, ?_⟩
                  rw [if_neg (by simp [hl])]
                | true =>
                  rw [hl] at hres
                  simp only [Bool.not_true] at hres
                  rw [if_neg (by simp)] at hres
                  simp only [Option.some.injEq, Prod.mk.injEq] at hres
                  obtain ⟨hh, -⟩ := hres
                  subst hh
                  constructor
                  · simp only [Herd.tune_cow_voices]
                    rw [htpi]
                  · simp only [Herd.tune_cow_voices]
                    rw [hsr]
                    rw [if_pos ?_]
                    constructor
                    · omega
                    · rw [← hlp]
                      exact hl
              · rw [if_neg hend] at hres
                simp only [Option.some.injEq, Prod.mk.injEq] at hres
                obtain ⟨hh, -⟩ := hres
                subst hh
                rw [← hsc, ← htpi, ← hse, ← hlp]
                refine ⟨rfl, ?_⟩
                rw [if_neg (by
                  intro hcon
                  exact hend (by omega))]
            | true =>
              simp only [eq_self_iff_true, if_true] at hres ⊢
              by_cases hend : (hB.smp_count + 1) % 2 ^ 32 ≥ hB.smp_end
              · rw [if_pos hend] at hres
                cases hl : hB.loop_ with
                | false =>
                  rw [hl] at hres
                  simp only [Bool.not_false, eq_self_iff_true, if_true,
                    Option.some.injEq, Prod.mk.injEq] at hres
                  obtain ⟨hh, -⟩ := hres
                  subst hh
                  rw [← hsc, ← htpi, ← hse, ← hlp]
                  refine ⟨rfl, ?_⟩
                  rw [if_neg (by simp [hl])]
                | true =>
                  rw [hl] at hres
                  simp only [Bool.not_true] at hres
                  rw [if_neg (by simp)] at hres
                  simp only [Option.some.injEq, Prod.mk.injEq] at hres
                  obtain ⟨hh, -⟩ := hres
                  subst hh
                  constructor
                  · simp only [Herd.tune_cow_voices]
                    rw [htpi]
                  · simp only [Herd.tune_cow_voices]
                    rw [hsr]
                    rw [if_pos ?_]
                    constructor
                    · omega
                    · rw [← hlp]
                      exact hl
              · rw [if_neg hend] at hres
                simp only [Option.some.injEq, Prod.mk.injEq] at hres
                obtain ⟨hh, -⟩ := hres
                subst hh
                rw [← hsc, ← htpi, ← hse, ← hlp]
                refine ⟨rfl, ?_⟩
                rw [if_neg (by
                  intro hcon
                  exact hend (by omega))]

/-- Witness for `next_sample_counters` on the idle fixture with
`advance = true`. -/
theorem next_sample_counters_witness :
    herd0.time_pan_index = (herd0.time_pan_index + 1) &&& 63 ∨
    ({ herd0 with smp_count := 1, time_pan_index := 1 } : Herd).time_pan_index =
        (herd0.time_pan_index + 1) &&& 63 ∧
      ({ herd0 with smp_count := 1, time_pan_index := 1 } : Herd).smp_count =
        (if (if true then (herd0.smp_count + 1) % 2 ^ 32 else herd0.smp_count) ≥
            herd0.smp_end ∧ herd0.loop_ = true then herd0.smp_repeat
          else (if true then (herd0.smp_count + 1) % 2 ^ 32
            else herd0.smp_count)) :=
  Or.inr (next_sample_counters herd0 ins0 { eves := [], ser_size := 0 } timing0
    44100 true (fun _ => 0) { herd0 with smp_count := 1, time_pan_index := 1 }
    (0, 0) true rfl)

/-- Counterexample to C5 as stated: a `next_sample` call with
`advance = false` still moves `time_pan_index` on (here from `0` to
`1`). -/
theorem next_sample_no_advance_moves_time_pan_index :
    next_sample herd0 ins0 { eves := [], ser_size := 0 } timing0 44100 false
        (fun _ => 0) =
      some ({ herd0 with time_pan_index := 1 }, (0, 0), true) ∧
    herd0.time_pan_index = 0 :=
  ⟨rfl, rfl⟩

/-- The moo frame loop never changes the number of frames (written or
stale, the buffer keeps its length). -/
theorem moo_frames_length (ins : MooInstructions) (events : EveList)
    (timing : Timing) (advance : Bool) (pf : Nat → Rat) :
    ∀ (buf : List (Int × Int)) (h h1 : Herd) (buf1 : List (Int × Int)),
      moo_frames ins events timing advance pf h buf = some (h1, buf1) →
      buf1.length = buf.length := by
  intro buf
  induction buf with
  | nil =>
    intro h h1 buf1 hres
    simp only [moo_frames, Option.some.injEq, Prod.mk.injEq] at hres
    obtain ⟨-, hb⟩ := hres
    rw [← hb]
  | cons f rest ih =>
    intro h h1 buf1 hres
    unfold moo_frames at hres
    cases hns : next_sample h ins events timing ins.out_sample_rate advance pf with
    | none =>
      simp only [hns] at hres
      exact Option.noConfusion hres
    | some p =>
      obtain ⟨h2, out, b⟩ := p
      cases b with
      | true =>
        simp only [hns] at hres
        cases hmf : moo_frames ins events timing advance pf h2 rest with
        | none =>
          simp only [hmf] at hres
          exact Option.noConfusion hres
        | some q =>
          obtain ⟨h3, rest1⟩ := q
          simp only [hmf, Option.some.injEq, Prod.mk.injEq] at hres
          obtain ⟨-, hb⟩ := hres
          rw [← hb]
          simp only [List.length_cons]
          rw [ih h2 h3 rest1 hmf]
      | false =>
        simp only [hns, Option.some.injEq, Prod.mk.injEq] at hres
        obtain ⟨-, hb⟩ := hres
        rw [← hb]
        simp

/-- C4 (amended): `Herd::moo` does not return `false` on the call in
which the stream ends; it returns `false` exactly when `moo_end` was
already set on entry (in which case it leaves the herd and the buffer
untouched).  On the ending call it writes the frames up to and
including the ending one, leaves the remaining frames stale, sets
`moo_end` and still returns `true` — so a caller that stops at the
first `false` does observe a partially-written buffer, one call
earlier. -/
theorem moo_false_only_after_end (h : Herd) (ins : MooInstructions)
    (events : EveList) (timing : Timing) (buf : List (Int × Int))
    (advance : Bool) (pf : Nat → Rat) (h' : Herd) (buf' : List (Int × Int))
    (r : Bool)
    (hres : Herd.moo h ins events timing buf advance pf = some (h', buf', r)) :
    r = !h.moo_end ∧ buf'.length = buf.length ∧
      (h.moo_end = true → h' = h ∧ buf' = buf) := by
  unfold Herd.moo at hres
  by_cases hm : h.moo_end = true
  · rw [if_pos hm] at hres
    simp only [Option.some.injEq, Prod.mk.injEq] at hres
    obtain ⟨hh, hb, hr⟩ := hres
    subst hh
    subst hb
    rw [hm, ← hr]
    exact ⟨rfl, rfl, fun _ => ⟨rfl, rfl⟩⟩
  · rw [if_neg hm] at hres
    have hm' : h.moo_end = false := by
      cases hme : h.moo_end
      · rfl
      · exact absurd hme hm
    cases hmf : moo_frames ins events timing advance pf h buf with
    | none =>
      simp only [hmf] at hres
      exact Option.noConfusion hres
    | some q =>
      obtain ⟨h1, buf1⟩ := q
      simp only [hmf, Option.some.injEq, Prod.mk.injEq] at hres
      obtain ⟨hh, hb, hr⟩ := hres
      subst hh
      subst hb
      rw [hm', ← hr]
      exact ⟨rfl, moo_frames_length ins events timing advance pf buf h h1 buf1 hmf,
        fun hc => absurd hc (by simp)⟩

/-- Witness for `moo_false_only_after_end`: a herd whose `moo_end` is
already set returns `false` and leaves everything untouched. -/
theorem moo_false_only_after_end_witness :
    false = !({ herd0 with moo_end := true } : Herd).moo_end ∧
    ([(7, 7)] : List (Int × Int)).length = ([(7, 7)] : List (Int × Int)).length ∧
    (({ herd0 with moo_end := true } : Herd).moo_end = true →
      ({ herd0 with moo_end := true } : Herd) = { herd0 with moo_end := true } ∧
      ([(7, 7)] : List (Int × Int)) = [(7, 7)]) :=
  moo_false_only_after_end { herd0 with moo_end := true } ins0
    { eves := [], ser_size := 0 } timing0 [(7, 7)] true (fun _ => 0)
    { herd0 with moo_end := true } [(7, 7)] false rfl

/-- Counterexample to C4 as stated: with the stream already at its
last sample, a two-frame `moo` call writes only the first frame (the
second keeps its stale sentinel `(9, 9)`), sets `moo_end` — and still
returns `true`; only the following call returns `false`. -/
theorem moo_partial_buffer_true_then_false :
    Herd.moo { herd0 with smp_count := 10 } ins0 { eves := [], ser_size := 0 }
        timing0 [(7, 7), (9, 9)] true (fun _ => 0) =
      some ({ herd0 with smp_count := 11, time_pan_index := 1, moo_end := true },
        [(0, 0), (9, 9)], true) ∧
    Herd.moo { herd0 with smp_count := 11, time_pan_index := 1, moo_end := true }
        ins0 { eves := [], ser_size := 0 } timing0 [(7, 7), (9, 9)] true
        (fun _ => 0) =
      some ({ herd0 with smp_count := 11, time_pan_index := 1, moo_end := true },
        [(7, 7), (9, 9)], false) :=
  ⟨rfl, rfl⟩

/-- `do_event` on an out-of-range unit index is `Break` with the herd
untouched. -/
theorem do_event_oob (h : Herd) (ins : MooInstructions) (events : EveList)
    (timing : Timing) (clock dst_sps : Nat) (pf : Nat → Rat) (evt : Event)
    (hoob : h.units.length ≤ evt.unit) :
    do_event h ins events timing clock dst_sps pf evt = some (h, false) := by
  unfold do_event
  rw [List.get?_eq_none.mpr hoob]

/-- `do_next_event` on a pending out-of-range event neither changes
the herd nor advances `evt_idx`. -/
theorem do_next_event_oob (h : Herd) (ins : MooInstructions)
    (events : EveList) (timing : Timing) (clock dst_sps : Nat)
    (pf : Nat → Rat) (evt : Event)
    (hpend : events.eves.get? h.evt_idx = some evt)
    (hoob : h.units.length ≤ evt.unit) :
    do_next_event h ins events timing clock dst_sps pf = some (h, false) := by
  unfold do_next_event
  simp only [hpend, do_event_oob h ins events timing clock dst_sps pf evt hoob]

/-- The drain loop can never move `evt_idx` past an event whose unit
index is out of range: it stops there (or earlier) every time. -/
theorem drain_events_stall (ins : MooInstructions) (events : EveList)
    (timing : Timing) (clock dst_sps : Nat) (pf : Nat → Rat) (j : Nat)
    (evtJ : Event) (hj : events.eves.get? j = some evtJ) (fuel : Nat) :
    ∀ (h h1 : Herd), h.evt_idx ≤ j → h.units.length ≤ evtJ.unit →
      drain_events ins events timing clock dst_sps pf fuel h = some h1 →
      h1.evt_idx ≤ j ∧ h1.units.length = h.units.length := by
  induction fuel with
  | zero =>
    intro h h1 hle hoob hres
    simp only [drain_events, Option.some.injEq] at hres
    subst hres
    exact ⟨hle, rfl⟩
  | succ fuel ih =>
    intro h h1 hle hoob hres
    unfold drain_events at hres
    cases he : events.eves.get? h.evt_idx with
    | none =>
      simp only [he, Option.some.injEq] at hres
      subst hres
      exact ⟨hle, rfl⟩
    | some evt =>
      simp only [he] at hres
      by_cases htick : evt.tick ≤ clock
      · rw [if_pos htick] at hres
        by_cases hij : h.evt_idx = j
        · have hevt : evt = evtJ := by
            rw [hij] at he
            rw [he] at hj
            exact Option.some.inj hj
          rw [do_next_event_oob h ins events timing clock dst_sps pf evt he
            (by rw [hevt]; exact hoob)] at hres
          simp only [Option.some.injEq] at hres
          subst hres
          exact ⟨hle, rfl⟩
        · cases hdo : do_next_event h ins events timing clock dst_sps pf with
          | none =>
            simp only [hdo] at hres
            exact Option.noConfusion hres
          | some p =>
            obtain ⟨h2, b2⟩ := p
            obtain ⟨hfr, hlen, hidx⟩ := do_next_event_frame h ins events timing
              clock dst_sps pf h2 b2 hdo
            cases b2 with
            | true =>
              simp only [hdo] at hres
              rw [if_pos rfl] at hidx
              obtain ⟨hle1, hlen1⟩ := ih h2 h1
                (by omega) (by rw [hlen]; exact hoob) hres
              exact ⟨hle1, by rw [hlen1, hlen]⟩
            | false =>
              simp only [hdo, Option.some.injEq] at hres
              subst hres
              rw [if_neg (by simp)] at hidx
              exact ⟨by omega, hlen⟩
      · rw [if_neg htick] at hres
        simp only [Option.some.injEq] at hres
        subst hres
        exact ⟨hle, rfl⟩

/-- The `tone_envelope` pass preserves the number of units. -/
theorem units_envelope_length (voices : List Voice) :
    ∀ (l l1 : List Unit), units_envelope voices l = some l1 →
      l1.length = l.length := by
  intro l
  induction l with
  | nil =>
    intro l1 hres
    simp only [units_envelope, Option.some.injEq] at hres
    rw [← hres]
  | cons u rest ih =>
    intro l1 hres
    unfold units_envelope at hres
    cases hu : u.tone_envelope voices with
    | none =>
      simp only [hu] at hres
      exact Option.noConfusion hres
    | some u1 =>
      cases hr : units_envelope voices rest with
      | none =>
        simp only [hu, hr] at hres
        exact Option.noConfusion hres
      | some rest1 =>
        simp only [hu, hr, Option.some.injEq] at hres
        rw [← hres]
        simp only [List.length_cons]
        rw [ih rest1 hr]

/-- The `tone_sample` pass preserves the number of units. -/
theorem units_sample_length (time_pan_index smooth : Nat)
    (voices : List Voice) :
    ∀ (l l1 : List Unit),
      units_sample time_pan_index smooth voices l = some l1 →
      l1.length = l.length := by
  intro l
  induction l with
  | nil =>
    intro l1 hres
    simp only [units_sample, Option.some.injEq] at hres
    rw [← hres]
  | cons u rest ih =>
    intro l1 hres
    unfold units_sample at hres
    cases hu : u.tone_sample time_pan_index smooth voices with
    | none =>
      simp only [hu] at hres
      exact Option.noConfusion hres
    | some u1 =>
      cases hr : units_sample time_pan_index smooth voices rest with
      | none =>
        simp only [hu, hr] at hres
        exact Option.noConfusion hres
      | some rest1 =>
        simp only [hu, hr, Option.some.injEq] at hres
        rw [← hres]
        simp only [List.length_cons]
        rw [ih rest1 hr]

/-- C10: an event whose unit index is at least the number of units is
never skipped — `do_event` returns `Break` leaving the herd untouched,
`do_next_event` then does not increment `evt_idx`, and consequently a
whole `next_sample` call can never move `evt_idx` past such an event
(the loop rewind only moves it back to `0`), so that event and all
later ones stay pending forever. -/
theorem oob_unit_event_stalls_playback :
    (∀ (h : Herd) (ins : MooInstructions) (events : EveList) (timing : Timing)
      (clock dst_sps : Nat) (pf : Nat → Rat) (evt : Event),
      h.units.length ≤ evt.unit →
      do_event h ins events timing clock dst_sps pf evt = some (h, false)) ∧
    (∀ (h : Herd) (ins : MooInstructions) (events : EveList) (timing : Timing)
      (clock dst_sps : Nat) (pf : Nat → Rat) (evt : Event),
      events.eves.get? h.evt_idx = some evt → h.units.length ≤ evt.unit →
      do_next_event h ins events timing clock dst_sps pf = some (h, false)) ∧
    (∀ (h : Herd) (ins : MooInstructions) (events : EveList) (timing : Timing)
      (dst_sps : Nat) (advance : Bool) (pf : Nat → Rat) (h' : Herd)
      (out : Int × Int) (cont : Bool) (j : Nat) (evtJ : Event),
      next_sample h ins events timing dst_sps advance pf =
        some (h', out, cont) →
      h.evt_idx ≤ j → events.eves.get? j = some evtJ →
      h.units.length ≤ evtJ.unit →
      h'.evt_idx ≤ j ∧ h'.units.length = h.units.length) := by
  refine ⟨do_event_oob, do_next_event_oob, ?_⟩
  intro h ins events timing dst_sps advance pf h' out cont j evtJ hres hle hj hoob
  unfold next_sample at hres
  cases henv : units_envelope ins.voices h.units with
  | none =>
    simp only [henv] at hres
    exact Option.noConfusion hres
  | some units1 =>
    have hlen1 : units1.length = h.units.length :=
      units_envelope_length ins.voices h.units units1 henv
    simp only [henv] at hres
    set hA : Herd := { h with units := units1 } with hAdef
    cases hdr : (if advance then
        drain_events ins events timing (current_tick hA ins) dst_sps pf
          (events.eves.length + 1) hA
      else some hA) with
    | none =>
      simp only [hdr] at hres
      exact Option.noConfusion hres
    | some hB =>
      have hBfr : hB.evt_idx ≤ j ∧ hB.units.length = h.units.length := by
        cases advance with
        | false =>
          rw [if_neg (by simp)] at hdr
          simp only [Option.some.injEq] at hdr
          subst hdr
          exact ⟨hle, hlen1⟩
        | true =>
          rw [if_pos rfl] at hdr
          obtain ⟨hle1, hlen2⟩ := drain_events_stall ins events timing
            (current_tick hA ins) dst_sps pf j evtJ hj (events.eves.length + 1)
            hA hB hle (by simpa [hAdef, hlen1] using hoob) hdr
          exact ⟨hle1, by rw [hlen2]; exact hlen1⟩
      obtain ⟨hBle, hBlen⟩ := hBfr
      simp only [hdr] at hres
      cases hsm : units_sample hB.time_pan_index hB.smp_smooth ins.voices
          hB.units with
      | none =>
        simp only [hsm] at hres
        exact Option.noConfusion hres
      | some units2 =>
        have hlen2 : units2.length = hB.units.length :=
          units_sample_length hB.time_pan_index hB.smp_smooth ins.voices
            hB.units units2 hsm
        simp only [hsm] at hres
        cases hch0 : channel_out 0 hB.time_pan_index units2 hB.overdrives
            hB.delays with
        | none =>
          simp only [hch0] at hres
          exact Option.noConfusion hres
        | some p0 =>
          obtain ⟨delays1, out0⟩ := p0
          simp only [hch0] at hres
          cases hch1 : channel_out 1 hB.time_pan_index units2 hB.overdrives
              delays1 with
          | none =>
            simp only [hch1] at hres
            exact Option.noConfusion hres
          | some p1 =>
            obtain ⟨delays2, out1⟩ := p1
            simp only [hch1] at hres
            have hincr : (units_increment hB.smp_stride pf ins.voices
                units2).length = h.units.length := by
              unfold units_increment
              rw [List.length_map, hlen2, hBlen]
            cases advance with
            | false =>
              simp only [Bool.false_eq_true, if_false] at hres
              by_cases hend : hB.smp_count ≥ hB.smp_end
              · rw [if_pos hend] at hres
                cases hl : hB.loop_ with
                | false =>
                  rw [hl] at hres
                  simp only [Bool.not_false, eq_self_iff_true, if_true,
                    Option.some.injEq, Prod.mk.injEq] at hres
                  obtain ⟨hh, -⟩ := hres
                  subst hh
                  exact ⟨hBle, hincr⟩
                | true =>
                  rw [hl] at hres
                  simp only [Bool.not_true] at hres
                  rw [if_neg (by simp)] at hres
                  simp only [Option.some.injEq, Prod.mk.injEq] at hres
                  obtain ⟨hh, -⟩ := hres
                  subst hh
                  constructor
                  · simp only [Herd.tune_cow_voices]
                    omega
                  · simp only [Herd.tune_cow_voices]
                    rw [List.length_map]
                    exact hincr
              · rw [if_neg hend] at hres
                simp only [Option.some.injEq, Prod.mk.injEq] at hres
                obtain ⟨hh, -⟩ := hres
                subst hh
                exact ⟨hBle, hincr⟩
            | true =>
              simp only [eq_self_iff_true, if_true] at hres
              by_cases hend : (hB.smp_count + 1) % 2 ^ 32 ≥ hB.smp_end
              · rw [if_pos hend] at hres
                cases hl : hB.loop_ with
                | false =>
                  rw [hl] at hres
                  simp only [Bool.not_false, eq_self_iff_true, if_true,
                    Option.some.injEq, Prod.mk.injEq] at hres
                  obtain ⟨hh, -⟩ := hres
                  subst hh
                  exact ⟨hBle, hincr⟩
                | true =>
                  rw [hl] at hres
                  simp only [Bool.not_true] at hres
                  rw [if_neg (by simp)] at hres
                  simp only [Option.some.injEq, Prod.mk.injEq] at hres
                  obtain ⟨hh, -⟩ := hres
                  subst hh
                  constructor
                  · simp only [Herd.tune_cow_voices]
                    omega
                  · simp only [Herd.tune_cow_voices]
                    rw [List.length_map]
                    exact hincr
              · rw [if_neg hend] at hres
                simp only [Option.some.injEq, Prod.mk.injEq] at hres
                obtain ⟨hh, -⟩ := hres
                subst hh
                exact ⟨hBle, hincr⟩

/-- Witness for `oob_unit_event_stalls_playback` on a unitless herd
and a single `On` event for unit 0: the event breaks the dispatch,
`evt_idx` stays `0` through a full `next_sample` call. -/
theorem oob_unit_event_stalls_playback_witness :
    do_event herd0 { ins0 with samples_per_tick := 0 }
        { eves := [{ payload := .onEv 0, unit := 0, tick := 0 }], ser_size := 0 }
        timing0 0 44100 (fun _ => 0)
        { payload := .onEv 0, unit := 0, tick := 0 } = some (herd0, false) ∧
    do_next_event herd0 { ins0 with samples_per_tick := 0 }
        { eves := [{ payload := .onEv 0, unit := 0, tick := 0 }], ser_size := 0 }
        timing0 0 44100 (fun _ => 0) = some (herd0, false) ∧
    (({ herd0 with smp_count := 1, time_pan_index := 1 } : Herd).evt_idx ≤ 0 ∧
      ({ herd0 with smp_count := 1, time_pan_index := 1 } : Herd).units.length =
        herd0.units.length) :=
  ⟨oob_unit_event_stalls_playback.1 herd0 { ins0 with samples_per_tick := 0 }
      { eves := [{ payload := .onEv 0, unit := 0, tick := 0 }], ser_size := 0 }
      timing0 0 44100 (fun _ => 0)
      { payload := .onEv 0, unit := 0, tick := 0 } (by decide),
    oob_unit_event_stalls_playback.2.1 herd0 { ins0 with samples_per_tick := 0 }
      { eves := [{ payload := .onEv 0, unit := 0, tick := 0 }], ser_size := 0 }
      timing0 0 44100 (fun _ => 0)
      { payload := .onEv 0, unit := 0, tick := 0 } rfl (by decide),
    oob_unit_event_stalls_playback.2.2 herd0 { ins0 with samples_per_tick := 0 }
      { eves := [{ payload := .onEv 0, unit := 0, tick := 0 }], ser_size := 0 }
      timing0 44100 true (fun _ => 0)
      { herd0 with smp_count := 1, time_pan_index := 1 } (0, 0) true 0
      { payload := .onEv 0, unit := 0, tick := 0 } (by rfl) (by decide) rfl
      (by decide)⟩

/-- `Int.tdiv` agrees with Euclidean division on nonnegative
operands. -/
theorem tdiv_eq_ediv_of_nonneg (a b : Int) (h : 0 ≤ a) (hb : 0 ≤ b) :
    a.tdiv b = a / b := by
  unfold Int.tdiv
  match a, h with
  | Int.ofNat n, _ =>
    match b, hb with
    | Int.ofNat m, _ => rfl

/-- Truncation toward zero of a nonnegative rational is its floor, so
it is characterised by the usual bracketing. -/
theorem rat_trunc_nonneg_eq (q : Rat) (n : Int) (hn : 0 ≤ n)
    (h1 : (n : Rat) ≤ q) (h2 : q < (n : Rat) + 1) : rat_trunc q = n := by
  unfold rat_trunc
  have hq0 : (0 : Rat) ≤ q := le_trans (by exact_mod_cast hn) h1
  have hnum : 0 ≤ q.num := Rat.num_nonneg.mpr hq0
  rw [tdiv_eq_ediv_of_nonneg q.num q.den hnum (by exact_mod_cast Nat.zero_le _)]
  rw [← Rat.floor_def]
  refine Int.floor_eq_iff.mpr ⟨h1, ?_⟩
  exact h2

/-- `rat_trunc` on an integer is the identity. -/
theorem rat_trunc_intCast (n : Int) : rat_trunc ((n : Rat)) = n := by
  unfold rat_trunc
  rw [Rat.num_intCast, Rat.den_intCast, Nat.cast_one, Int.tdiv_one]

/-- `sat_i32` on an in-range integer is the identity. -/
theorem sat_i32_intCast (n : Int) (h1 : -(2 ^ 31) ≤ n) (h2 : n < 2 ^ 31) :
    sat_i32 ((n : Rat)) = n := by
  unfold sat_i32
  rw [rat_trunc_intCast]
  omega

/-- C7: rebuilding an overdrive with `cut_percent = 50` yields
`cut_16bit_top = ⌊32767·50/100⌋ = 16383`; that overdrive (with
`amp_mul = 2`) maps a group sample of `+20000` to `32766` and one of
`-40000` to `-32766`; and in general an enabled overdrive with an
in-range nonnegative `cut_16bit_top` first clamps the group sample
into `[-cut_16bit_top, cut_16bit_top]` and then multiplies by
`amp_mul` (truncating the `f32` product toward zero). -/
theorem overdrive_clamp_then_amplify :
    (Overdrive.rebuild { on_ := true, group := 0, cut_percent := 50, amp_mul := 2, cut_16bit_top := 0 }).cut_16bit_top = 16383 ∧
    Overdrive.tone_supple { on_ := true, group := 0, cut_percent := 50, amp_mul := 2, cut_16bit_top := 16383 } [20000, 0, 0, 0, 0, 0, 0] =
      some [32766, 0, 0, 0, 0, 0, 0] ∧
    Overdrive.tone_supple { on_ := true, group := 0, cut_percent := 50, amp_mul := 2, cut_16bit_top := 16383 } [-40000, 0, 0, 0, 0, 0, 0] =
      some [-32766, 0, 0, 0, 0, 0, 0] ∧
    (∀ (o : Overdrive) (smps : List Int) (w : Int), o.on_ = true →
      0 ≤ o.cut_16bit_top → o.cut_16bit_top < 2 ^ 31 →
      smps.get? o.group = some w →
      Overdrive.tone_supple o smps = some (smps.set o.group
        (sat_i32 (((max (-o.cut_16bit_top) (min o.cut_16bit_top w) : Int) : Rat) *
          o.amp_mul)))) := by
  have hgen : ∀ (o : Overdrive) (smps : List Int) (w : Int), o.on_ = true →
      0 ≤ o.cut_16bit_top → o.cut_16bit_top < 2 ^ 31 →
      smps.get? o.group = some w →
      Overdrive.tone_supple o smps = some (smps.set o.group
        (sat_i32 (((max (-o.cut_16bit_top) (min o.cut_16bit_top w) : Int) : Rat) *
          o.amp_mul))) := by
    intro o smps w hon h0 h31 hget
    have hlt : o.group < smps.length := by
      by_contra hc
      rw [List.get?_eq_none.mpr (Nat.le_of_not_lt hc)] at hget
      exact Option.noConfusion hget
    unfold Overdrive.tone_supple
    rw [hon]
    simp only [Bool.not_true]
    rw [if_neg (by simp)]
    simp only [hget]
    have hnt : wrap32 (-o.cut_16bit_top) = -o.cut_16bit_top := by
      unfold wrap32
      omega
    rw [hnt]
    have hclamp : (if w > o.cut_16bit_top then o.cut_16bit_top
        else if w < -o.cut_16bit_top then -o.cut_16bit_top else w) =
        max (-o.cut_16bit_top) (min o.cut_16bit_top w) := by
      split_ifs <;> omega
    rw [hclamp]
    unfold list_set_checked
    rw [if_pos hlt]
  refine ⟨?_, ?_, ?_, hgen⟩
  · show sat_i32 (32767 * (100 - 50) / 100) = 16383
    unfold sat_i32
    rw [rat_trunc_nonneg_eq (32767 * (100 - 50) / 100) 16383 (by norm_num)
      (by norm_num) (by norm_num)]
    decide
  · rw [hgen { on_ := true, group := 0, cut_percent := 50, amp_mul := 2, cut_16bit_top := 16383 }
      [20000, 0, 0, 0, 0, 0, 0] 20000 rfl (by norm_num) (by norm_num) rfl]
    have hv : ((max (-(16383 : Int)) (min 16383 20000) : Int) : Rat) * 2 =
        ((32766 : Int) : Rat) := by
      norm_num
    rw [hv, sat_i32_intCast 32766 (by norm_num) (by norm_num)]
    rfl
  · rw [hgen { on_ := true, group := 0, cut_percent := 50, amp_mul := 2, cut_16bit_top := 16383 }
      [-40000, 0, 0, 0, 0, 0, 0] (-40000) rfl (by norm_num) (by norm_num) rfl]
    have hv : ((max (-(16383 : Int)) (min 16383 (-40000)) : Int) : Rat) * 2 =
        ((-32766 : Int) : Rat) := by
      norm_num
    rw [hv, sat_i32_intCast (-32766) (by norm_num) (by norm_num)]
    rfl

/-- Witness for the universally quantified clamp-then-amplify clause
of `overdrive_clamp_then_amplify`, at the cut-50/amp-2 overdrive and a
`+20000` group sample. -/
theorem overdrive_clamp_then_amplify_witness :
    Overdrive.tone_supple { on_ := true, group := 0, cut_percent := 50, amp_mul := 2, cut_16bit_top := 16383 } [20000, 0, 0, 0, 0, 0, 0] =
      some ([20000, 0, 0, 0, 0, 0, 0].set 0
        (sat_i32 (((max (-(16383 : Int)) (min 16383 20000) : Int) : Rat) * 2))) :=
  overdrive_clamp_then_amplify.2.2.2
    { on_ := true, group := 0, cut_percent := 50, amp_mul := 2, cut_16bit_top := 16383 }
    [20000, 0, 0, 0, 0, 0, 0] 20000 rfl
    (by norm_num) (by norm_num) rfl

end Moo

end Ptcow
